import Mathlib

/-!
# Ticket allocator (`core/tsystem.go`)

A shallow embedding of the `TicketSystem` of `core/tsystem.go` and of the way
`main.go` constructs it.

* A Go `sync.Map` with `int` keys is a duplicate-free association list
  (`SyncMap`); `Load` and `Store` are the two methods the program calls.
* Go `int` values are integers in the 64-bit range.  `t.TotalTickets++`
  is computed in two's complement (`wrapInt64`); `t.TotalTickets--` and
  `count - 1` are only reached with a positive operand, where they cannot
  wrap.  A run starts from a supply in that range, and in every state
  reachable from a supply of at least `0` the counter stays between `0` and
  the supply (`reachable_Bounded`).
* `Logger` only writes; its output is kept as the list `Log` of the lines
  printed so far.
* `Mutex` makes every stretch of code between `Lock`/wake-up and
  `Unlock`/`Wait` atomic.  A request is therefore a sequence of atomic
  sections, and the concurrent system is the transition system `step` over
  `Config`: the shared memory together with the goroutines parked in
  `Condition.Wait` and those already signalled but not yet running.
* `Range` visits the entries of a map in an order the program does not
  control; the two listings are folds over the entries, and what is proved
  of them holds for every visiting order.
* `ReachableSingle` restricts the schedules to those in which no user has
  two requests in flight.
* Inside an atomic section the memory passes through the stages of the
  section (`sectionStages`) while the handler holds the mutex.  A method
  called at such an instant (`World`) waits if it starts with `Mutex.Lock()`
  and reads the memory as it is if it does not (`Called`).
-/

namespace TicketBooking

/-! ## `sync.Map` -/

/-- Lookup of key `k` in an association list. -/
def loadList {α : Type} (k : Int) : List (Int × α) → Option α
  | [] => none
  | (k', v) :: rest => if k' = k then some v else loadList k rest

/-- Overwrite the value stored for `k`, or add the entry when `k` has none. -/
def storeList {α : Type} (k : Int) (v : α) : List (Int × α) → List (Int × α)
  | [] => [(k, v)]
  | (k', v') :: rest =>
      if k' = k then (k, v) :: rest else (k', v') :: storeList k v rest

theorem keys_storeList {α : Type} (k : Int) (v : α) (l : List (Int × α)) :
    (storeList k v l).map Prod.fst =
      if k ∈ l.map Prod.fst then l.map Prod.fst else l.map Prod.fst ++ [k] := by
  induction l with
  | nil => simp [storeList]
  | cons e rest ih =>
      obtain ⟨k', v'⟩ := e
      by_cases h : k' = k
      · subst h; simp [storeList]
      · have h' : ¬ k = k' := fun e => h e.symm
        by_cases hm : k ∈ rest.map Prod.fst
        · simp only [storeList, h, if_false, List.map_cons, ih, hm, if_true, List.mem_cons,
            or_true]
        · simp only [storeList, h, if_false, List.map_cons, ih, hm, List.mem_cons, h',
            or_self, List.cons_append]

theorem nodup_storeList {α : Type} (k : Int) (v : α) (l : List (Int × α))
    (h : (l.map Prod.fst).Nodup) : ((storeList k v l).map Prod.fst).Nodup := by
  rw [keys_storeList]
  split
  · exact h
  · rename_i hk
    exact List.Nodup.append h (List.nodup_singleton k) (by simpa using hk)

/-- A `sync.Map` keyed by `int`: its entries, no key occurring twice. -/
structure SyncMap (α : Type) where
  entries : List (Int × α)
  nodup : (entries.map Prod.fst).Nodup

namespace SyncMap

/-- The zero value `sync.Map{}`. -/
def empty {α : Type} : SyncMap α := ⟨[], List.nodup_nil⟩

/-- `m.Load(k)`: `some v` stands for `(v, true)`, `none` for `(nil, false)`. -/
def Load {α : Type} (m : SyncMap α) (k : Int) : Option α := loadList k m.entries

/-- `m.Store(k, v)`. -/
def Store {α : Type} (m : SyncMap α) (k : Int) (v : α) : SyncMap α :=
  ⟨storeList k v m.entries, nodup_storeList k v m.entries m.nodup⟩

end SyncMap

/-! ## `TicketSystem` -/

/-- The fields of `TicketSystem` that the request handlers read and write. -/
structure TicketSystem where
  TotalTickets : Int
  UserTickets : SyncMap Int
  WaitingUsers : SyncMap Bool
  History : SyncMap (List String)
  Log : List String

/-- The struct literal of `main.go` with `TotalTickets: supply`. -/
def newTicketSystem (supply : Int) : TicketSystem :=
  { TotalTickets := supply, UserTickets := SyncMap.empty, WaitingUsers := SyncMap.empty,
    History := SyncMap.empty, Log := [] }

/-- `t.Logger.Printf(...)` with the formatted line `line`. -/
def TicketSystem.Printf (t : TicketSystem) (line : String) : TicketSystem :=
  { t with Log := t.Log ++ [line] }

def alreadyHasMsg (id : Int) : String :=
  "❌ user " ++ toString id ++ " already has a ticket!"

def waitingMsg (id : Int) : String :=
  "🔄 user " ++ toString id ++ " waiting for ticket..."

def purchaseMsg (id total : Int) : String :=
  "✅ user " ++ toString id ++ " success purchase ticket! remaining tickets: " ++ toString total

def stillWaitingMsg (id : Int) : String :=
  "🔄 user " ++ toString id ++ " still waiting for ticket..."

def refundMsg (id total : Int) : String :=
  "🔄 user " ++ toString id ++ " success refund ticket! remaining tickets: " ++ toString total

def noRefundMsg (id : Int) : String :=
  "❌ user " ++ toString id ++ " doesn't have a ticket to refund!"

def nilAssertionPanic : String :=
  "panic: interface conversion: interface \x7b\x7d is nil, not int"

/-- `QueryHistory`. -/
def QueryHistory (t : TicketSystem) (userID : Int) : List String :=
  match t.History.Load userID with
  | some hist => hist
  | none => []

/-- `AddHistory`. -/
def AddHistory (t : TicketSystem) (userID : Int) (message : String) : TicketSystem :=
  let history := match t.History.Load userID with
    | some existingHistory => existingHistory
    | none => []
  { t with History := t.History.Store userID (history ++ [message]) }

/-- `QueryTickets`. -/
def QueryTickets (t : TicketSystem) (userID : Int) : Int :=
  match t.UserTickets.Load userID with
  | some count => count
  | none => 0

/-- The first `Range` of `GetUsersWithoutTickets`, visiting the entries of
`WaitingUsers` in the order `ws`: a user whose flag is `true` is appended. -/
def rangeWaiting (ws : List (Int × Bool)) (users : List Int) : List Int :=
  ws.foldl (fun acc e => if e.2 = true then acc ++ [e.1] else acc) users

/-- The second `Range` of `GetUsersWithoutTickets`, visiting the entries of
`UserTickets` in the order `us`: a user with count `0` is appended unless
the search through the list finds it already there. -/
def rangeNoTickets (us : List (Int × Int)) (users : List Int) : List Int :=
  us.foldl
    (fun acc e =>
      if e.2 = 0 then
        if acc.any (fun id => decide (id = e.1)) then acc else acc ++ [e.1]
      else acc)
    users

/-- `GetUsersWithoutTickets`: the slice it returns. -/
def GetUsersWithoutTickets (t : TicketSystem) : List Int :=
  rangeNoTickets t.UserTickets.entries (rangeWaiting t.WaitingUsers.entries [])

/-- The `Range` of `GetUsersWithTickets`, visiting the entries of
`UserTickets` in the order `us`: a user with a count above `0` is appended. -/
def rangeWithTickets (us : List (Int × Int)) (users : List Int) : List Int :=
  us.foldl (fun acc e => if e.2 > 0 then acc ++ [e.1] else acc) users

/-- `GetUsersWithTickets`: the slice it returns. -/
def GetUsersWithTickets (t : TicketSystem) : List Int :=
  rangeWithTickets t.UserTickets.entries []

/-- How an atomic section of `HandleBuyRequest` ends: at the early `return`
(`rejected`), parked in `Condition.Wait` (`blocked`), or at the final
`Unlock` (`done`). -/
inductive BuyStatus
  | rejected
  | blocked
  | done
  deriving DecidableEq, Repr

/-- One pass through the body of the `for t.TotalTickets == 0` loop, up to
the call of `Condition.Wait`. -/
def waitLoopBody (t : TicketSystem) (id : Int) : TicketSystem :=
  let t1 := { t with UserTickets := t.UserTickets.Store id 0 }
  let t2 := { t1 with WaitingUsers := t1.WaitingUsers.Store id true }
  t2.Printf (waitingMsg id)

/-- The `if t.TotalTickets > 0 ... else ...` statement after the loop. -/
def buyTail (t : TicketSystem) (id : Int) : TicketSystem :=
  if t.TotalTickets > 0 then
    let t1 := { t with TotalTickets := t.TotalTickets - 1 }
    let t2 := { t1 with UserTickets := t1.UserTickets.Store id 1 }
    let t3 := { t2 with WaitingUsers := t2.WaitingUsers.Store id false }
    let t4 := t3.Printf (purchaseMsg id t3.TotalTickets)
    AddHistory t4 id (purchaseMsg id t4.TotalTickets)
  else
    let t1 := t.Printf (stillWaitingMsg id)
    { t1 with WaitingUsers := t1.WaitingUsers.Store id true }

/-- `HandleBuyRequest` from the loop test on: run when the request first
reaches the loop and again each time it returns from `Condition.Wait`. -/
def buyLoop (t : TicketSystem) (id : Int) : BuyStatus × TicketSystem :=
  if t.TotalTickets = 0 then (BuyStatus.blocked, waitLoopBody t id)
  else (BuyStatus.done, buyTail t id)

/-- `HandleBuyRequest` from `Lock` to the first of: the early `return`, the
first `Condition.Wait`, the final `Unlock`. -/
def HandleBuyRequest (t : TicketSystem) (id : Int) : BuyStatus × TicketSystem :=
  match t.UserTickets.Load id with
  | some count =>
      if count > 0 then (BuyStatus.rejected, t.Printf (alreadyHasMsg id))
      else buyLoop t id
  | none => buyLoop t id

/-- The largest Go `int` (64 bits). -/
def maxInt64 : Int := 9223372036854775807

/-- The smallest Go `int` (64 bits). -/
def minInt64 : Int := -9223372036854775808

/-- The Go `int` that stands for the mathematical result `n` of an `int`
operation: `n` reduced to 64 bits in two's complement. -/
def wrapInt64 (n : Int) : Int :=
  (n + 9223372036854775808) % 18446744073709551616 - 9223372036854775808

/-- The writes of the `count.(int) > 0` branch of `HandleRefundRequest`, up
to the call of `Condition.Signal`; `count` is the value that was loaded.
`t.TotalTickets++` wraps round at the largest `int`. -/
def refundTail (t : TicketSystem) (id count : Int) : TicketSystem :=
  let t1 := { t with TotalTickets := wrapInt64 (t.TotalTickets + 1) }
  let t2 := { t1 with UserTickets := t1.UserTickets.Store id (count - 1) }
  let t3 := t2.Printf (refundMsg id t2.TotalTickets)
  AddHistory t3 id (refundMsg id t3.TotalTickets)

/-- `HandleRefundRequest`.  The Boolean tells whether `Condition.Signal` was
called.  `count.(int)` on the `nil` that `Load` returns for a missing key
panics: that is `Except.error`. -/
def HandleRefundRequest (t : TicketSystem) (id : Int) : Except String (Bool × TicketSystem) :=
  match t.UserTickets.Load id with
  | none => Except.error nilAssertionPanic
  | some count =>
      if count > 0 then Except.ok (true, refundTail t id count)
      else Except.ok (false, t.Printf (noRefundMsg id))

/-- The counter at the largest `int`, user `0` holding one ticket. -/
def fullCounter : TicketSystem :=
  { newTicketSystem maxInt64 with UserTickets := SyncMap.empty.Store 0 1 }

/-- The sum of all values stored in `UserTickets`. -/
def totalHeld (t : TicketSystem) : Int := (t.UserTickets.entries.map Prod.snd).sum

/-- No stored holding is negative, the counter is not negative, and counter
plus holdings do not exceed the supply. -/
def Bounded (supply : Int) (t : TicketSystem) : Prop :=
  (∀ e ∈ t.UserTickets.entries, 0 ≤ e.2) ∧ 0 ≤ t.TotalTickets ∧
    t.TotalTickets + totalHeld t ≤ supply

/-- Every stored holding is `0` or `1`. -/
def Binary (t : TicketSystem) : Prop :=
  ∀ e ∈ t.UserTickets.entries, e.2 = 0 ∨ e.2 = 1

/-- The counter is not negative, every stored holding is `0` or `1`, and a
user flagged as waiting has a stored holding of `0`. -/
def FlagSound (t : TicketSystem) : Prop :=
  0 ≤ t.TotalTickets ∧ Binary t ∧
    ∀ u : Int, t.WaitingUsers.Load u = some true → t.UserTickets.Load u = some 0

/-- The counter is negative and nothing is stored in `UserTickets`. -/
def NoTicketEver (t : TicketSystem) : Prop :=
  t.TotalTickets < 0 ∧ t.UserTickets.entries = []

/-! ## The memory inside a critical section -/

/-- The shared memory at the start of `waitLoopBody` and after each of its
statements, in program order. -/
def waitLoopBodyStages (t : TicketSystem) (id : Int) : List TicketSystem :=
  let t1 := { t with UserTickets := t.UserTickets.Store id 0 }
  let t2 := { t1 with WaitingUsers := t1.WaitingUsers.Store id true }
  [t, t1, t2, t2.Printf (waitingMsg id)]

/-- The shared memory at the start of `buyTail` and after each of its
statements, in program order. -/
def buyTailStages (t : TicketSystem) (id : Int) : List TicketSystem :=
  if t.TotalTickets > 0 then
    let t1 := { t with TotalTickets := t.TotalTickets - 1 }
    let t2 := { t1 with UserTickets := t1.UserTickets.Store id 1 }
    let t3 := { t2 with WaitingUsers := t2.WaitingUsers.Store id false }
    let t4 := t3.Printf (purchaseMsg id t3.TotalTickets)
    [t, t1, t2, t3, t4, AddHistory t4 id (purchaseMsg id t4.TotalTickets)]
  else
    let t1 := t.Printf (stillWaitingMsg id)
    [t, t1, { t1 with WaitingUsers := t1.WaitingUsers.Store id true }]

/-- The shared memory at the start of `refundTail` and after each of its
statements, in program order. -/
def refundTailStages (t : TicketSystem) (id count : Int) : List TicketSystem :=
  let t1 := { t with TotalTickets := wrapInt64 (t.TotalTickets + 1) }
  let t2 := { t1 with UserTickets := t1.UserTickets.Store id (count - 1) }
  let t3 := t2.Printf (refundMsg id t2.TotalTickets)
  [t, t1, t2, t3, AddHistory t3 id (refundMsg id t3.TotalTickets)]

/-- The answers `QueryTickets(u)` and `QueryHistory(u)` give in state `s`
are the ones they give in `before`, or the ones they give in `after`. -/
def AnswersAsAtBoundary (before after s : TicketSystem) : Prop :=
  ∀ u : Int,
    (QueryTickets s u = QueryTickets before u ∨ QueryTickets s u = QueryTickets after u) ∧
    (QueryHistory s u = QueryHistory before u ∨ QueryHistory s u = QueryHistory after u)

/-! ## The concurrent system -/

/-- The shared memory together with the `HandleBuyRequest` goroutines that
are inside the wait loop: `waiters` are parked in `Condition.Wait` (oldest
first), `woken` have been released by a `Signal` and will run again once
they get the mutex. Each is recorded by the user ID it was called with. -/
structure Config where
  sys : TicketSystem
  waiters : List Int
  woken : List Int

/-- The state `main.go` starts `system.Start()` in. -/
def initConfig (supply : Int) : Config :=
  { sys := newTicketSystem supply, waiters := [], woken := [] }

/-- The atomic sections. `buy id`: a new `HandleBuyRequest(id)` gets the
mutex. `refund id w`: a `HandleRefundRequest(id)` gets the mutex; if it
signals, the waiter at position `w` is the one released. `resume r`: the
signalled goroutine at position `r` gets the mutex and returns from `Wait`. -/
inductive Event
  | buy (id : Int)
  | refund (id : Int) (w : Nat)
  | resume (r : Nat)
  deriving DecidableEq, Repr

/-- The end of an atomic section of `HandleBuyRequest(id)`: the goroutine is
parked when the section ended in `Condition.Wait`, and is gone otherwise. -/
def endBuySection (c : Config) (id : Int) (r : BuyStatus × TicketSystem) : Config :=
  match r.1 with
  | BuyStatus.blocked => { c with sys := r.2, waiters := c.waiters ++ [id] }
  | _ => { c with sys := r.2 }

/-- `Condition.Signal()`: nothing happens without a waiter, otherwise the
waiter at position `w` is released (`none`: there is no such position). -/
def signal (c : Config) (w : Nat) : Option Config :=
  match c.waiters with
  | [] => some c
  | _ :: _ =>
      match c.waiters.get? w with
      | some id => some { c with waiters := c.waiters.eraseIdx w, woken := c.woken ++ [id] }
      | none => none

/-- One atomic section. `none`: the event cannot happen in `c`, or the
process ends in a panic. -/
def step (c : Config) : Event → Option Config
  | Event.buy id => some (endBuySection c id (HandleBuyRequest c.sys id))
  | Event.refund id w =>
      match HandleRefundRequest c.sys id with
      | Except.error _ => none
      | Except.ok (true, t) => signal { c with sys := t } w
      | Except.ok (false, t) => some { c with sys := t }
  | Event.resume r =>
      match c.woken.get? r with
      | none => none
      | some id => some (endBuySection { c with woken := c.woken.eraseIdx r } id (buyLoop c.sys id))

/-- A schedule: atomic sections one after the other. -/
def run (c : Config) : List Event → Option Config
  | [] => some c
  | e :: es =>
      match step c e with
      | none => none
      | some c' => run c' es

/-- The state a schedule ends in (the start state when it cannot run). -/
def runFrom (c : Config) (es : List Event) : Config := (run c es).getD c

/-- The states the system can be in when the mutex is free, started with
`supply` tickets; the supply is the initial value of the `int` field
`TotalTickets`, so it lies in the range of a Go `int`. -/
inductive Reachable (supply : Int) : Config → Prop
  | init : minInt64 ≤ supply → supply ≤ maxInt64 → Reachable supply (initConfig supply)
  | step (c c' : Config) (e : Event) : Reachable supply c → step c e = some c' →
      Reachable supply c'

/-- The users with a `HandleBuyRequest` inside the wait loop (parked in
`Wait`, or signalled and about to return from it), one entry per request. -/
def Config.suspended (c : Config) : List Int := c.waiters ++ c.woken

/-- The user whose new request the event serves (`none` for the resumption
of a request that is already in flight). -/
def Event.requester : Event → Option Int
  | Event.buy id => some id
  | Event.refund id _ => some id
  | Event.resume _ => none

/-- The states the system can be in when the mutex is free, started with
`supply` tickets, when no user ever has two requests in flight: a new
request of a user is served only while none of that user is suspended. -/
inductive ReachableSingle (supply : Int) : Config → Prop
  | init : minInt64 ≤ supply → supply ≤ maxInt64 →
      ReachableSingle supply (initConfig supply)
  | step (c c' : Config) (e : Event) : ReachableSingle supply c →
      (∀ id : Int, e.requester = some id → id ∉ c.suspended) →
      step c e = some c' → ReachableSingle supply c'

/-- No user has two suspended requests, every user with a suspended request
has a stored holding of `0`, and counter plus holdings equal the supply. -/
def SingleInv (supply : Int) (c : Config) : Prop :=
  c.suspended.Nodup ∧ (∀ u ∈ c.suspended, c.sys.UserTickets.Load u = some 0) ∧
    c.sys.TotalTickets + totalHeld c.sys = supply

/-- The counter is not negative and every flagged user has a suspended
request. -/
def FlagImplies (c : Config) : Prop :=
  0 ≤ c.sys.TotalTickets ∧
    ∀ u : Int, c.sys.WaitingUsers.Load u = some true → u ∈ c.suspended

/-- Every user with a suspended request is flagged. -/
def FlagComplete (c : Config) : Prop :=
  ∀ u ∈ c.suspended, c.sys.WaitingUsers.Load u = some true

/-- The schedule can run from `c` and serves a new request of a user only
while none of that user is suspended. -/
def disciplined (c : Config) : List Event → Bool
  | [] => true
  | e :: es =>
      (match e.requester with
        | some id => decide (id ∉ c.suspended)
        | none => true) &&
      (match step c e with
        | some c' => disciplined c' es
        | none => false)

/-- One ticket; user `0` buys it; user `1` sends two buy requests, both
parked; user `0` refunds and the first parked request of user `1` runs. -/
def staleWaiterSchedule : List Event :=
  [Event.buy 0, Event.buy 1, Event.buy 1, Event.refund 0 0, Event.resume 0]

/-- One ticket; user `0` buys it; user `1` is parked; user `0` refunds, which
signals user `1`. -/
def handoverPrefix : List Event :=
  [Event.buy 0, Event.buy 1, Event.refund 0 0]

/-- One ticket; user `0` buys it; user `1` is parked; user `0` refunds, which
signals user `1`; user `2` gets the mutex first and buys the ticket; user `1`
then returns from `Wait`. -/
def stolenTicketSchedule : List Event :=
  [Event.buy 0, Event.buy 1, Event.refund 0 0, Event.buy 2, Event.resume 0]

/-- Two tickets; users `0` and `1` buy them; user `2` sends two buy requests,
both parked; user `0` refunds and the first parked request runs; user `1`
refunds and the second parked request runs. -/
def lostTicketSchedule : List Event :=
  [Event.buy 0, Event.buy 1, Event.buy 2, Event.buy 2,
   Event.refund 0 0, Event.resume 0, Event.refund 1 0, Event.resume 0]

/-! ## The methods as a goroutine calls them -/

/-- The memory at the start of the loop part of `HandleBuyRequest` and after
each statement it then runs, up to `Wait` or `Unlock`. -/
def buyLoopStages (t : TicketSystem) (id : Int) : List TicketSystem :=
  if t.TotalTickets = 0 then waitLoopBodyStages t id else buyTailStages t id

/-- The memory at the start of the atomic section that the event runs in
`c` and after each of its statements, in program order. -/
def sectionStages (c : Config) : Event → List TicketSystem
  | Event.buy id =>
      match c.sys.UserTickets.Load id with
      | some count =>
          if count > 0 then [c.sys, c.sys.Printf (alreadyHasMsg id)]
          else buyLoopStages c.sys id
      | none => buyLoopStages c.sys id
  | Event.refund id _ =>
      match c.sys.UserTickets.Load id with
      | none => [c.sys]
      | some count =>
          if count > 0 then refundTailStages c.sys id count
          else [c.sys, c.sys.Printf (noRefundMsg id)]
  | Event.resume r =>
      match c.woken.get? r with
      | none => []
      | some id => buyLoopStages c.sys id

/-- The struct at one instant: the memory, and whether a goroutine holds
`Mutex` at that instant. -/
structure World where
  mem : TicketSystem
  locked : Bool

/-- The instants of a run started with `supply` tickets: between two atomic
sections the mutex is free and the memory is that of a reachable
configuration; inside a section the handler holds the mutex and the memory is
one of the stages of the section. -/
inductive Occurs (supply : Int) : World → Prop
  | free (c : Config) : Reachable supply c → Occurs supply { mem := c.sys, locked := false }
  | inside (c c' : Config) (e : Event) (s : TicketSystem) : Reachable supply c →
      step c e = some c' → s ∈ sectionStages c e → Occurs supply { mem := s, locked := true }

/-- How a method called at some instant goes on: it waits in `Mutex.Lock()`,
or it reads the memory of that instant and returns. -/
inductive Called (α : Type)
  | waits
  | returned (a : α)
  deriving DecidableEq, Repr

/-- `t.Mutex.Lock()`, `defer t.Mutex.Unlock()` and the body: the body runs
only if no goroutine holds the mutex. -/
def underMutex {α : Type} (w : World) (body : TicketSystem → α) : Called α :=
  if w.locked then Called.waits else Called.returned (body w.mem)

/-- `QueryHistory` called at the instant `w`; the method has no `Lock`. -/
def callQueryHistory (w : World) (userID : Int) : Called (List String) :=
  Called.returned (QueryHistory w.mem userID)

/-- `QueryTickets` called at the instant `w`; the method has no `Lock`. -/
def callQueryTickets (w : World) (userID : Int) : Called Int :=
  Called.returned (QueryTickets w.mem userID)

/-- `GetUsersWithoutTickets` called at the instant `w`. -/
def callGetUsersWithoutTickets (w : World) : Called (List Int) :=
  underMutex w GetUsersWithoutTickets

/-- `GetUsersWithTickets` called at the instant `w`. -/
def callGetUsersWithTickets (w : World) : Called (List Int) :=
  underMutex w GetUsersWithTickets

/-- The memory while the signalled `HandleBuyRequest(1)` of `handoverPrefix`
is between `t.UserTickets.Store(id, 1)` and `t.WaitingUsers.Store(id, false)`. -/
def midPurchase : TicketSystem :=
  { (runFrom (initConfig 1) handoverPrefix).sys with
    TotalTickets := (runFrom (initConfig 1) handoverPrefix).sys.TotalTickets - 1
    UserTickets := (runFrom (initConfig 1) handoverPrefix).sys.UserTickets.Store 1 1 }

/-! ## Facts about `Load` and `Store` -/

theorem wrapInt64_succ (n : Int) (h0 : minInt64 ≤ n) (h1 : n < maxInt64) :
    wrapInt64 (n + 1) = n + 1 := by
  unfold wrapInt64
  unfold minInt64 at h0
  unfold maxInt64 at h1
  omega

theorem wrapInt64_succ_of_nonneg (n : Int) (h0 : 0 ≤ n) (h1 : n < maxInt64) :
    wrapInt64 (n + 1) = n + 1 :=
  wrapInt64_succ n (by unfold minInt64; omega) h1

theorem loadList_storeList_same {α : Type} (k : Int) (v : α) (l : List (Int × α)) :
    loadList k (storeList k v l) = some v := by
  induction l with
  | nil => simp [storeList, loadList]
  | cons e rest ih =>
      obtain ⟨k', v'⟩ := e
      by_cases h : k' = k
      · simp [storeList, loadList, h]
      · simp [storeList, loadList, h, ih]

theorem loadList_storeList_ne {α : Type} (k k' : Int) (v : α) (l : List (Int × α))
    (hne : k' ≠ k) : loadList k' (storeList k v l) = loadList k' l := by
  induction l with
  | nil => simp [storeList, loadList, hne.symm]
  | cons e rest ih =>
      obtain ⟨k'', v''⟩ := e
      by_cases h : k'' = k
      · subst h
        simp [storeList, loadList, hne.symm]
      · by_cases h2 : k'' = k'
        · subst h2
          simp [storeList, loadList, h]
        · simp [storeList, loadList, h, h2, ih]

theorem sum_storeList (k : Int) (v : Int) (l : List (Int × Int)) :
    ((storeList k v l).map Prod.snd).sum =
      (l.map Prod.snd).sum - (loadList k l).getD 0 + v := by
  induction l with
  | nil => simp [storeList, loadList]
  | cons e rest ih =>
      obtain ⟨k', v'⟩ := e
      by_cases h : k' = k
      · simp [storeList, loadList, h]
        ring
      · simp [storeList, loadList, h, ih]
        ring

theorem mem_storeList {α : Type} (k : Int) (v : α) (l : List (Int × α)) (e : Int × α)
    (he : e ∈ storeList k v l) : e = (k, v) ∨ e ∈ l := by
  induction l with
  | nil => simpa [storeList] using he
  | cons x rest ih =>
      obtain ⟨k', v'⟩ := x
      by_cases h : k' = k
      · simp only [storeList, h, if_true, List.mem_cons] at he
        rcases he with he | he
        · exact Or.inl he
        · exact Or.inr (List.mem_cons_of_mem _ he)
      · simp only [storeList, h, if_false, List.mem_cons] at he
        rcases he with he | he
        · exact Or.inr (by simp [he])
        · rcases ih he with h1 | h1
          · exact Or.inl h1
          · exact Or.inr (List.mem_cons_of_mem _ h1)

namespace SyncMap

@[simp] theorem Load_empty {α : Type} (k : Int) : (SyncMap.empty : SyncMap α).Load k = none := rfl

@[simp] theorem Load_Store_same {α : Type} (m : SyncMap α) (k : Int) (v : α) :
    (m.Store k v).Load k = some v := loadList_storeList_same k v m.entries

theorem Load_Store_ne {α : Type} (m : SyncMap α) (k k' : Int) (v : α) (hne : k' ≠ k) :
    (m.Store k v).Load k' = m.Load k' := loadList_storeList_ne k k' v m.entries hne

end SyncMap

theorem totalHeld_Store (t : TicketSystem) (k v : Int) :
    totalHeld { t with UserTickets := t.UserTickets.Store k v } =
      totalHeld t - (t.UserTickets.Load k).getD 0 + v :=
  sum_storeList k v t.UserTickets.entries

@[simp] theorem QueryHistory_AddHistory_same (t : TicketSystem) (u : Int) (msg : String) :
    QueryHistory (AddHistory t u msg) u = QueryHistory t u ++ [msg] := by
  unfold QueryHistory AddHistory
  simp only [SyncMap.Load_Store_same]

theorem History_AddHistory_ne (t : TicketSystem) (u v : Int) (msg : String) (hne : v ≠ u) :
    (AddHistory t u msg).History.Load v = t.History.Load v := by
  unfold AddHistory
  exact SyncMap.Load_Store_ne _ _ _ _ hne

theorem History_AddHistory_same (t : TicketSystem) (u : Int) (msg : String) :
    (AddHistory t u msg).History.Load u = some (QueryHistory t u ++ [msg]) := by
  unfold QueryHistory AddHistory
  simp only [SyncMap.Load_Store_same]

theorem QueryHistory_AddHistory_ne (t : TicketSystem) (u v : Int) (msg : String) (hne : v ≠ u) :
    QueryHistory (AddHistory t u msg) v = QueryHistory t v := by
  unfold QueryHistory
  rw [History_AddHistory_ne t u v msg hne]

/-- `AddHistory` only ever extends what `QueryHistory` returns. -/
theorem QueryHistory_AddHistory_extends (t : TicketSystem) (u v : Int) (msg : String) :
    QueryHistory t v <+: QueryHistory (AddHistory t u msg) v := by
  by_cases h : v = u
  · subst h
    rw [QueryHistory_AddHistory_same]
    exact List.prefix_append _ _
  · rw [QueryHistory_AddHistory_ne t u v msg h]

/-! ## Schedules -/

theorem run_cons_of_step (c c' : Config) (e : Event) (es : List Event)
    (h : step c e = some c') : run c (e :: es) = run c' es := by
  simp [run, h]

theorem run_eq_runFrom (c : Config) (es : List Event) (h : (run c es).isSome = true) :
    run c es = some (runFrom c es) := by
  unfold runFrom
  cases hr : run c es with
  | none => rw [hr] at h; exact absurd h (by simp)
  | some c' => rfl

theorem reachable_run (supply : Int) (es : List Event) (c c' : Config)
    (hc : Reachable supply c) (hr : run c es = some c') : Reachable supply c' := by
  induction es generalizing c with
  | nil =>
      simp only [run, Option.some.injEq] at hr
      rw [← hr]; exact hc
  | cons e es ih =>
      simp only [run] at hr
      split at hr
      · exact absurd hr (by simp)
      · rename_i c1 h1
        exact ih c1 (Reachable.step c c1 e hc h1) hr

/-! ## The pool never goes negative -/

theorem buyTail_nonneg (t : TicketSystem) (id : Int) (h : 0 ≤ t.TotalTickets) :
    0 ≤ (buyTail t id).TotalTickets := by
  unfold buyTail
  split
  · simp only [AddHistory, TicketSystem.Printf]
    omega
  · exact h

theorem buyLoop_nonneg (t : TicketSystem) (id : Int) (h : 0 ≤ t.TotalTickets) :
    0 ≤ (buyLoop t id).2.TotalTickets := by
  unfold buyLoop
  split
  · exact h
  · exact buyTail_nonneg t id h

theorem HandleBuyRequest_nonneg (t : TicketSystem) (id : Int) (h : 0 ≤ t.TotalTickets) :
    0 ≤ (HandleBuyRequest t id).2.TotalTickets := by
  unfold HandleBuyRequest
  split
  · split
    · exact h
    · exact buyLoop_nonneg t id h
  · exact buyLoop_nonneg t id h

theorem HandleRefundRequest_nonneg (t t' : TicketSystem) (id : Int) (b : Bool)
    (h : 0 ≤ t.TotalTickets) (hlt : t.TotalTickets < maxInt64)
    (hr : HandleRefundRequest t id = Except.ok (b, t')) :
    0 ≤ t'.TotalTickets := by
  unfold HandleRefundRequest at hr
  split at hr
  · exact absurd hr (by simp)
  · split at hr
    · simp only [Except.ok.injEq, Prod.mk.injEq] at hr
      rw [← hr.2]
      show 0 ≤ wrapInt64 (t.TotalTickets + 1)
      rw [wrapInt64_succ_of_nonneg t.TotalTickets h hlt]
      omega
    · simp only [Except.ok.injEq, Prod.mk.injEq] at hr
      rw [← hr.2]
      exact h

theorem endBuySection_sys (c : Config) (id : Int) (r : BuyStatus × TicketSystem) :
    (endBuySection c id r).sys = r.2 := by
  unfold endBuySection
  split <;> rfl

theorem signal_sys (c c' : Config) (w : Nat) (h : signal c w = some c') : c'.sys = c.sys := by
  unfold signal at h
  split at h
  · simp only [Option.some.injEq] at h
    rw [← h]
  · split at h
    · simp only [Option.some.injEq] at h
      rw [← h]
    · exact absurd h (by simp)

/-! ## Rejections -/

/-- Claim C3 (no double-acquire): when the holding stored for `u` is at
least `1`, `HandleBuyRequest(u)` ends at its early `return`, whatever
`TotalTickets` is; the request is not parked among the waiters, and
`TotalTickets`, `UserTickets`, `WaitingUsers` and `History` are what they
were (only the log line of the rejection is written). -/
theorem no_double_acquire (c : Config) (u h : Int)
    (hload : c.sys.UserTickets.Load u = some h) (hpos : 1 ≤ h) :
    (HandleBuyRequest c.sys u).1 = BuyStatus.rejected ∧
    (HandleBuyRequest c.sys u).2 = { c.sys with Log := c.sys.Log ++ [alreadyHasMsg u] } ∧
    (HandleBuyRequest c.sys u).2.TotalTickets = c.sys.TotalTickets ∧
    (HandleBuyRequest c.sys u).2.UserTickets = c.sys.UserTickets ∧
    (HandleBuyRequest c.sys u).2.WaitingUsers = c.sys.WaitingUsers ∧
    (HandleBuyRequest c.sys u).2.History = c.sys.History ∧
    step c (Event.buy u) =
      some { c with sys := { c.sys with Log := c.sys.Log ++ [alreadyHasMsg u] } } := by
  have hgt : h > 0 := by omega
  have hb : HandleBuyRequest c.sys u =
      (BuyStatus.rejected, { c.sys with Log := c.sys.Log ++ [alreadyHasMsg u] }) := by
    simp [HandleBuyRequest, hload, hgt, TicketSystem.Printf]
  refine ⟨by rw [hb], by rw [hb], by rw [hb], by rw [hb], by rw [hb], by rw [hb], ?_⟩
  simp only [step, hb, endBuySection]

theorem no_double_acquire_witness :
    (runFrom (initConfig 1) [Event.buy 0]).sys.UserTickets.Load 0 = some 1 ∧ (1 : Int) ≤ 1 ∧
    (runFrom (initConfig 1) [Event.buy 0]).sys.TotalTickets = 0 ∧
    (HandleBuyRequest (runFrom (initConfig 1) [Event.buy 0]).sys 0).1 = BuyStatus.rejected ∧
    (HandleBuyRequest (runFrom (initConfig 1) [Event.buy 0]).sys 0).2.UserTickets =
      (runFrom (initConfig 1) [Event.buy 0]).sys.UserTickets :=
  have h := no_double_acquire (runFrom (initConfig 1) [Event.buy 0]) 0 1 rfl (by decide)
  ⟨rfl, by decide, rfl, h.1, h.2.2.2.1⟩

/-- Claim C4 (no over-refund): when the holding stored for `u` is `0`,
`HandleRefundRequest(u)` returns without calling `Signal`, and
`TotalTickets`, `UserTickets`, `WaitingUsers` and `History` are what they
were (only the log line of the rejection is written); no waiter is released. -/
theorem no_over_refund (c : Config) (u : Int) (w : Nat)
    (hload : c.sys.UserTickets.Load u = some 0) :
    HandleRefundRequest c.sys u =
      Except.ok (false, { c.sys with Log := c.sys.Log ++ [noRefundMsg u] }) ∧
    step c (Event.refund u w) =
      some { c with sys := { c.sys with Log := c.sys.Log ++ [noRefundMsg u] } } := by
  have hr : HandleRefundRequest c.sys u =
      Except.ok (false, { c.sys with Log := c.sys.Log ++ [noRefundMsg u] }) := by
    simp [HandleRefundRequest, hload, TicketSystem.Printf]
  exact ⟨hr, by simp only [step, hr]⟩

theorem no_over_refund_witness :
    (runFrom (initConfig 3) [Event.buy 0, Event.refund 0 0]).sys.UserTickets.Load 0 = some 0 ∧
    step (runFrom (initConfig 3) [Event.buy 0, Event.refund 0 0]) (Event.refund 0 0) =
      some { runFrom (initConfig 3) [Event.buy 0, Event.refund 0 0] with
        sys := { (runFrom (initConfig 3) [Event.buy 0, Event.refund 0 0]).sys with
          Log := (runFrom (initConfig 3) [Event.buy 0, Event.refund 0 0]).sys.Log ++
            [noRefundMsg 0] } } :=
  ⟨rfl, (no_over_refund (runFrom (initConfig 3) [Event.buy 0, Event.refund 0 0]) 0 0 rfl).2⟩

/-- Claim C5, evaluated on the code: for a user with no entry in
`UserTickets` (user `7` in the state `main.go` builds), whose holding
queries as `0`, `HandleRefundRequest` does not return: the type assertion on
the `nil` it loaded panics. -/
theorem refund_unknown_user_panics :
    QueryTickets (newTicketSystem 3) 7 = 0 ∧
    HandleRefundRequest (newTicketSystem 3) 7 = Except.error nilAssertionPanic ∧
    step (initConfig 3) (Event.refund 7 0) = none :=
  ⟨rfl, rfl, rfl⟩

/-- Every user without an entry makes `HandleRefundRequest` panic. -/
theorem HandleRefundRequest_absent (t : TicketSystem) (id : Int)
    (h : t.UserTickets.Load id = none) :
    HandleRefundRequest t id = Except.error nilAssertionPanic := by
  simp [HandleRefundRequest, h]

/-! ## Successful requests -/

theorem buyTail_of_pos (t : TicketSystem) (id : Int) (h : 0 < t.TotalTickets) :
    buyTail t id =
      AddHistory
        { t with
          TotalTickets := t.TotalTickets - 1
          UserTickets := t.UserTickets.Store id 1
          WaitingUsers := t.WaitingUsers.Store id false
          Log := t.Log ++ [purchaseMsg id (t.TotalTickets - 1)] }
        id (purchaseMsg id (t.TotalTickets - 1)) := by
  have h' : t.TotalTickets > 0 := h
  simp [buyTail, h', TicketSystem.Printf]

theorem buyTail_of_nonpos (t : TicketSystem) (id : Int) (hT : ¬ 0 < t.TotalTickets) :
    (buyTail t id).TotalTickets = t.TotalTickets ∧ (buyTail t id).UserTickets = t.UserTickets := by
  have hT' : ¬ t.TotalTickets > 0 := hT
  simp only [buyTail, hT', if_false]
  exact ⟨rfl, rfl⟩

theorem HandleBuyRequest_of_free (t : TicketSystem) (u : Int) (hT : 0 < t.TotalTickets)
    (hu : t.UserTickets.Load u = none ∨ t.UserTickets.Load u = some 0) :
    HandleBuyRequest t u = (BuyStatus.done, buyTail t u) := by
  have hne : t.TotalTickets ≠ 0 := by omega
  rcases hu with hu | hu <;> simp [HandleBuyRequest, hu, buyLoop, hne]

/-- Claim C6 (acquire success): with `TotalTickets > 0` and the holding of
`u` either `0` or absent, `HandleBuyRequest(u)` runs to its final `Unlock`
without being parked; afterwards `TotalTickets` is one less, `u` holds `1`,
the waiting flag of `u` is `false`, the history of `u` is the old one with
the purchase line appended, and holding, waiting flag and history of every
other user are what they were. -/
theorem acquire_success (c : Config) (u : Int) (hT : 0 < c.sys.TotalTickets)
    (hu : c.sys.UserTickets.Load u = none ∨ c.sys.UserTickets.Load u = some 0) :
    (HandleBuyRequest c.sys u).1 = BuyStatus.done ∧
    step c (Event.buy u) = some { c with sys := (HandleBuyRequest c.sys u).2 } ∧
    (HandleBuyRequest c.sys u).2.TotalTickets = c.sys.TotalTickets - 1 ∧
    (HandleBuyRequest c.sys u).2.UserTickets.Load u = some 1 ∧
    (HandleBuyRequest c.sys u).2.WaitingUsers.Load u = some false ∧
    (HandleBuyRequest c.sys u).2.History.Load u =
      some (QueryHistory c.sys u ++ [purchaseMsg u (c.sys.TotalTickets - 1)]) ∧
    ∀ v : Int, v ≠ u →
      (HandleBuyRequest c.sys u).2.UserTickets.Load v = c.sys.UserTickets.Load v ∧
      (HandleBuyRequest c.sys u).2.WaitingUsers.Load v = c.sys.WaitingUsers.Load v ∧
      (HandleBuyRequest c.sys u).2.History.Load v = c.sys.History.Load v := by
  have hb := HandleBuyRequest_of_free c.sys u hT hu
  have ht := buyTail_of_pos c.sys u hT
  refine ⟨by rw [hb], ?_, ?_, ?_, ?_, ?_, ?_⟩
  · simp only [step, hb, endBuySection]
  · rw [hb, ht]; rfl
  · rw [hb, ht]; exact SyncMap.Load_Store_same _ _ _
  · rw [hb, ht]; exact SyncMap.Load_Store_same _ _ _
  · rw [hb, ht, History_AddHistory_same]; rfl
  · intro v hv
    rw [hb, ht]
    refine ⟨?_, ?_, ?_⟩
    · exact SyncMap.Load_Store_ne _ _ _ _ hv
    · exact SyncMap.Load_Store_ne _ _ _ _ hv
    · rw [History_AddHistory_ne _ _ _ _ hv]

theorem acquire_success_witness :
    (HandleBuyRequest (initConfig 3).sys 4).1 = BuyStatus.done ∧
    (HandleBuyRequest (initConfig 3).sys 4).2.TotalTickets = 2 ∧
    (HandleBuyRequest (initConfig 3).sys 4).2.UserTickets.Load 4 = some 1 :=
  have h := acquire_success (initConfig 3) 4 (by decide) (Or.inl rfl)
  ⟨h.1, h.2.2.1, h.2.2.2.1⟩

theorem refundTail_eq (t : TicketSystem) (u h : Int) :
    refundTail t u h =
      AddHistory
        { t with
          TotalTickets := wrapInt64 (t.TotalTickets + 1)
          UserTickets := t.UserTickets.Store u (h - 1)
          Log := t.Log ++ [refundMsg u (wrapInt64 (t.TotalTickets + 1))] }
        u (refundMsg u (wrapInt64 (t.TotalTickets + 1))) := rfl

theorem HandleRefundRequest_of_holding (t : TicketSystem) (u h : Int)
    (hload : t.UserTickets.Load u = some h) (hpos : 0 < h) :
    HandleRefundRequest t u = Except.ok (true, refundTail t u h) := by
  have h' : h > 0 := hpos
  simp [HandleRefundRequest, hload, h']

/-- Claim C7 as the code has it: when `TotalTickets` is a Go `int` below the
largest one and `u` holds `h > 0`, `HandleRefundRequest(u)` returns after
calling `Signal`, in a state where `TotalTickets` is one more, `u` holds
`h - 1`, the history of `u` is the old one with the refund line appended,
all waiting flags are what they were, and so are holding and history of
every other user. -/
theorem release_success (t : TicketSystem) (u h : Int)
    (hload : t.UserTickets.Load u = some h) (hpos : 0 < h)
    (hmin : minInt64 ≤ t.TotalTickets) (hmax : t.TotalTickets < maxInt64) :
    ∃ t' : TicketSystem,
      HandleRefundRequest t u = Except.ok (true, t') ∧
      t'.TotalTickets = t.TotalTickets + 1 ∧
      t'.UserTickets.Load u = some (h - 1) ∧
      t'.History.Load u = some (QueryHistory t u ++ [refundMsg u (t.TotalTickets + 1)]) ∧
      t'.WaitingUsers = t.WaitingUsers ∧
      ∀ v : Int, v ≠ u →
        t'.UserTickets.Load v = t.UserTickets.Load v ∧
        t'.History.Load v = t.History.Load v := by
  have hw := wrapInt64_succ t.TotalTickets hmin hmax
  refine ⟨_, HandleRefundRequest_of_holding t u h hload hpos, hw, ?_, ?_, rfl, ?_⟩
  · exact SyncMap.Load_Store_same _ _ _
  · rw [refundTail_eq, History_AddHistory_same, hw]; rfl
  · intro v hv
    refine ⟨SyncMap.Load_Store_ne _ _ _ _ hv, ?_⟩
    rw [refundTail_eq, History_AddHistory_ne _ _ _ _ hv]

theorem release_success_witness :
    (runFrom (initConfig 3) [Event.buy 0]).sys.UserTickets.Load 0 = some 1 ∧ (0 : Int) < 1 ∧
    minInt64 ≤ (runFrom (initConfig 3) [Event.buy 0]).sys.TotalTickets ∧
    (runFrom (initConfig 3) [Event.buy 0]).sys.TotalTickets < maxInt64 ∧
    ∃ t' : TicketSystem,
      HandleRefundRequest (runFrom (initConfig 3) [Event.buy 0]).sys 0 = Except.ok (true, t') ∧
      t'.TotalTickets = 3 ∧ t'.UserTickets.Load 0 = some 0 :=
  have h := release_success (runFrom (initConfig 3) [Event.buy 0]).sys 0 1 rfl (by decide)
    (by decide) (by decide)
  ⟨rfl, by decide, by decide, by decide, h.elim fun t' ht => ⟨t', ht.1, ht.2.1, ht.2.2.1⟩⟩

/-- Claim C7 fails as stated: in the state `fullCounter`, where
`TotalTickets` is the largest `int` and user `0` holds one ticket,
`HandleRefundRequest(0)` succeeds and leaves `TotalTickets` at the smallest
`int`, not one higher. -/
theorem release_wraps_at_max :
    fullCounter.UserTickets.Load 0 = some 1 ∧
    fullCounter.TotalTickets = 9223372036854775807 ∧
    HandleRefundRequest fullCounter 0 = Except.ok (true, refundTail fullCounter 0 1) ∧
    (refundTail fullCounter 0 1).TotalTickets = -9223372036854775808 ∧
    ¬ ∃ t' : TicketSystem,
        HandleRefundRequest fullCounter 0 = Except.ok (true, t') ∧
        t'.TotalTickets = fullCounter.TotalTickets + 1 := by
  have hr : HandleRefundRequest fullCounter 0 = Except.ok (true, refundTail fullCounter 0 1) :=
    HandleRefundRequest_of_holding fullCounter 0 1 rfl (by decide)
  have hT : (refundTail fullCounter 0 1).TotalTickets = -9223372036854775808 := by decide
  refine ⟨rfl, rfl, hr, hT, ?_⟩
  rintro ⟨t', h1, h2⟩
  rw [hr] at h1
  simp only [Except.ok.injEq, Prod.mk.injEq, true_and] at h1
  rw [← h1, hT] at h2
  exact absurd h2 (by decide)

/-! ## Histories only grow -/

theorem QueryHistory_congr (t t' : TicketSystem) (u : Int) (h : t'.History = t.History) :
    QueryHistory t' u = QueryHistory t u := by
  unfold QueryHistory
  rw [h]

theorem extends_of_History_eq (t t' : TicketSystem) (u : Int) (h : t'.History = t.History) :
    QueryHistory t u <+: QueryHistory t' u := by
  rw [QueryHistory_congr t t' u h]

theorem extends_AddHistory_of_eq (t t' : TicketSystem) (id u : Int) (msg : String)
    (h : t'.History = t.History) :
    QueryHistory t u <+: QueryHistory (AddHistory t' id msg) u :=
  List.IsPrefix.trans (extends_of_History_eq t t' u h) (QueryHistory_AddHistory_extends t' id u msg)

theorem buyTail_extends (t : TicketSystem) (id u : Int) :
    QueryHistory t u <+: QueryHistory (buyTail t id) u := by
  unfold buyTail
  split
  · exact extends_AddHistory_of_eq t _ id u _ rfl
  · exact extends_of_History_eq t _ u rfl

theorem buyLoop_extends (t : TicketSystem) (id u : Int) :
    QueryHistory t u <+: QueryHistory (buyLoop t id).2 u := by
  unfold buyLoop
  split
  · exact extends_of_History_eq t _ u rfl
  · exact buyTail_extends t id u

theorem HandleBuyRequest_extends (t : TicketSystem) (id u : Int) :
    QueryHistory t u <+: QueryHistory (HandleBuyRequest t id).2 u := by
  unfold HandleBuyRequest
  split
  · split
    · exact extends_of_History_eq t _ u rfl
    · exact buyLoop_extends t id u
  · exact buyLoop_extends t id u

theorem HandleRefundRequest_extends (t t' : TicketSystem) (id u : Int) (b : Bool)
    (hr : HandleRefundRequest t id = Except.ok (b, t')) :
    QueryHistory t u <+: QueryHistory t' u := by
  unfold HandleRefundRequest at hr
  split at hr
  · exact absurd hr (by simp)
  · split at hr
    · simp only [Except.ok.injEq, Prod.mk.injEq] at hr
      rw [← hr.2, refundTail_eq]
      exact extends_AddHistory_of_eq t _ id u _ rfl
    · simp only [Except.ok.injEq, Prod.mk.injEq] at hr
      rw [← hr.2]
      exact extends_of_History_eq t _ u rfl

theorem step_extends (c c' : Config) (e : Event) (u : Int) (hs : step c e = some c') :
    QueryHistory c.sys u <+: QueryHistory c'.sys u := by
  cases e with
  | buy id =>
      simp only [step, Option.some.injEq] at hs
      rw [← hs, endBuySection_sys]
      exact HandleBuyRequest_extends c.sys id u
  | refund id w =>
      simp only [step] at hs
      split at hs
      · exact absurd hs (by simp)
      · rename_i t hr
        rw [signal_sys _ _ _ hs]
        exact HandleRefundRequest_extends c.sys t id u true hr
      · rename_i t hr
        simp only [Option.some.injEq] at hs
        rw [← hs]
        exact HandleRefundRequest_extends c.sys t id u false hr
  | resume r =>
      simp only [step] at hs
      split at hs
      · exact absurd hs (by simp)
      · simp only [Option.some.injEq] at hs
        rw [← hs, endBuySection_sys]
        exact buyLoop_extends c.sys _ u

theorem run_extends (es : List Event) (c c' : Config) (u : Int) (hr : run c es = some c') :
    QueryHistory c.sys u <+: QueryHistory c'.sys u := by
  induction es generalizing c with
  | nil =>
      simp only [run, Option.some.injEq] at hr
      rw [hr]
  | cons e es ih =>
      simp only [run] at hr
      split at hr
      · exact absurd hr (by simp)
      · rename_i c1 h1
        exact List.IsPrefix.trans (step_extends c c1 e u h1) (ih c1 hr)

/-- Claim C8 (history append-only): for every state and every user `u`, what
`QueryHistory(u)` returns before a step is a prefix of what it returns after
it, the step being `AddHistory`, a `HandleBuyRequest` (entered anew or
resumed after `Wait`), a `HandleRefundRequest` that returns, any atomic
section of the concurrent system, or any sequence of them. The queries are
functions of the state and write nothing. -/
theorem history_append_only (c : Config) (u : Int) :
    (∀ (id : Int) (msg : String),
      QueryHistory c.sys u <+: QueryHistory (AddHistory c.sys id msg) u) ∧
    (∀ id : Int, QueryHistory c.sys u <+: QueryHistory (HandleBuyRequest c.sys id).2 u) ∧
    (∀ id : Int, QueryHistory c.sys u <+: QueryHistory (buyLoop c.sys id).2 u) ∧
    (∀ (id : Int) (b : Bool) (t' : TicketSystem),
      HandleRefundRequest c.sys id = Except.ok (b, t') →
        QueryHistory c.sys u <+: QueryHistory t' u) ∧
    (∀ (e : Event) (c' : Config), step c e = some c' →
      QueryHistory c.sys u <+: QueryHistory c'.sys u) ∧
    (∀ (es : List Event) (c' : Config), run c es = some c' →
      QueryHistory c.sys u <+: QueryHistory c'.sys u) :=
  ⟨fun id msg => QueryHistory_AddHistory_extends c.sys id u msg,
   fun id => HandleBuyRequest_extends c.sys id u,
   fun id => buyLoop_extends c.sys id u,
   fun id b t' hr => HandleRefundRequest_extends c.sys t' id u b hr,
   fun e c' hs => step_extends c c' e u hs,
   fun es c' hr => run_extends es c c' u hr⟩

theorem history_append_only_witness :
    step (runFrom (initConfig 3) [Event.buy 0]) (Event.refund 0 0) =
      some (runFrom (initConfig 3) [Event.buy 0, Event.refund 0 0]) ∧
    QueryHistory (runFrom (initConfig 3) [Event.buy 0]).sys 0 <+:
      QueryHistory (runFrom (initConfig 3) [Event.buy 0, Event.refund 0 0]).sys 0 :=
  ⟨rfl, (history_append_only (runFrom (initConfig 3) [Event.buy 0]) 0).2.2.2.2.1
    (Event.refund 0 0) (runFrom (initConfig 3) [Event.buy 0, Event.refund 0 0]) rfl⟩

/-! ## What one atomic section does to each user -/

@[simp] theorem newTicketSystem_TotalTickets (n : Int) : (newTicketSystem n).TotalTickets = n := rfl

@[simp] theorem newTicketSystem_UserTickets (n : Int) (v : Int) :
    (newTicketSystem n).UserTickets.Load v = none := rfl

@[simp] theorem newTicketSystem_WaitingUsers (n : Int) (v : Int) :
    (newTicketSystem n).WaitingUsers.Load v = none := rfl

@[simp] theorem newTicketSystem_QueryHistory (n : Int) (v : Int) :
    QueryHistory (newTicketSystem n) v = [] := rfl

theorem Load_Store {α : Type} (m : SyncMap α) (k k' : Int) (v : α) :
    (m.Store k v).Load k' = if k' = k then some v else m.Load k' := by
  by_cases h : k' = k
  · subst h; simp
  · simp [h, SyncMap.Load_Store_ne m k k' v h]

theorem QueryTickets_eq (t : TicketSystem) (v : Int) :
    QueryTickets t v = (t.UserTickets.Load v).getD 0 := by
  unfold QueryTickets
  cases t.UserTickets.Load v <;> rfl

theorem QueryHistory_AddHistory (t : TicketSystem) (u v : Int) (msg : String) :
    QueryHistory (AddHistory t u msg) v =
      if v = u then QueryHistory t v ++ [msg] else QueryHistory t v := by
  by_cases h : v = u
  · subst h; simp
  · simp [h, QueryHistory_AddHistory_ne t u v msg h]

@[simp] theorem waitLoopBody_TotalTickets (t : TicketSystem) (u : Int) :
    (waitLoopBody t u).TotalTickets = t.TotalTickets := rfl

@[simp] theorem waitLoopBody_UserTickets (t : TicketSystem) (u v : Int) :
    (waitLoopBody t u).UserTickets.Load v = if v = u then some 0 else t.UserTickets.Load v :=
  Load_Store _ _ _ _

@[simp] theorem waitLoopBody_WaitingUsers (t : TicketSystem) (u v : Int) :
    (waitLoopBody t u).WaitingUsers.Load v =
      if v = u then some true else t.WaitingUsers.Load v :=
  Load_Store _ _ _ _

@[simp] theorem waitLoopBody_QueryHistory (t : TicketSystem) (u v : Int) :
    QueryHistory (waitLoopBody t u) v = QueryHistory t v := rfl

theorem buyTail_TotalTickets (t : TicketSystem) (u : Int) (h : 0 < t.TotalTickets) :
    (buyTail t u).TotalTickets = t.TotalTickets - 1 := by
  rw [buyTail_of_pos t u h]; rfl

theorem buyTail_UserTickets (t : TicketSystem) (u v : Int) (h : 0 < t.TotalTickets) :
    (buyTail t u).UserTickets.Load v = if v = u then some 1 else t.UserTickets.Load v := by
  rw [buyTail_of_pos t u h]; exact Load_Store _ _ _ _

theorem buyTail_WaitingUsers (t : TicketSystem) (u v : Int) (h : 0 < t.TotalTickets) :
    (buyTail t u).WaitingUsers.Load v =
      if v = u then some false else t.WaitingUsers.Load v := by
  rw [buyTail_of_pos t u h]; exact Load_Store _ _ _ _

theorem buyTail_QueryHistory (t : TicketSystem) (u v : Int) (h : 0 < t.TotalTickets) :
    QueryHistory (buyTail t u) v =
      if v = u then QueryHistory t v ++ [purchaseMsg u (t.TotalTickets - 1)]
      else QueryHistory t v := by
  rw [buyTail_of_pos t u h, QueryHistory_AddHistory]; rfl

/-- A new `HandleBuyRequest(u)` of a user holding nothing, with a ticket
left: the section runs to `Unlock`. -/
theorem step_buy_done (c : Config) (u : Int) (hT : 0 < c.sys.TotalTickets)
    (hu : (c.sys.UserTickets.Load u).getD 0 = 0) :
    step c (Event.buy u) = some { c with sys := buyTail c.sys u } := by
  have hne : c.sys.TotalTickets ≠ 0 := by omega
  simp only [step, HandleBuyRequest]
  cases hl : c.sys.UserTickets.Load u with
  | none => simp [buyLoop, hne, endBuySection]
  | some n =>
      have hn : n = 0 := by simpa [hl] using hu
      subst hn
      simp [buyLoop, hne, endBuySection]

/-- A new `HandleBuyRequest(u)` of a user holding nothing, with no ticket
left: the goroutine is parked in `Wait`. -/
theorem step_buy_blocked (c : Config) (u : Int) (hT : c.sys.TotalTickets = 0)
    (hu : (c.sys.UserTickets.Load u).getD 0 = 0) :
    step c (Event.buy u) =
      some { c with sys := waitLoopBody c.sys u, waiters := c.waiters ++ [u] } := by
  simp only [step, HandleBuyRequest]
  cases hl : c.sys.UserTickets.Load u with
  | none => simp [buyLoop, hT, endBuySection]
  | some n =>
      have hn : n = 0 := by simpa [hl] using hu
      subst hn
      simp [buyLoop, hT, endBuySection]

/-- The waiter at the head of `woken` runs again with a ticket left. -/
theorem step_resume_done (c : Config) (u : Int) (rest : List Int) (hw : c.woken = u :: rest)
    (hT : 0 < c.sys.TotalTickets) :
    step c (Event.resume 0) = some { c with sys := buyTail c.sys u, woken := rest } := by
  have hne : c.sys.TotalTickets ≠ 0 := by omega
  simp [step, hw, buyLoop, hne, endBuySection]

/-- A `HandleRefundRequest(u)` of a holder, the waiter at the head of the
queue being the one that `Signal` releases. -/
theorem step_refund_signal (c : Config) (u h w : Int) (rest : List Int)
    (hload : c.sys.UserTickets.Load u = some h) (hpos : 0 < h) (hw : c.waiters = w :: rest) :
    step c (Event.refund u 0) =
      some { sys := refundTail c.sys u h, waiters := rest, woken := c.woken ++ [w] } := by
  simp [step, HandleRefundRequest_of_holding c.sys u h hload hpos, signal, hw]

@[simp] theorem refundTail_TotalTickets (t : TicketSystem) (u h : Int) :
    (refundTail t u h).TotalTickets = wrapInt64 (t.TotalTickets + 1) := rfl

@[simp] theorem refundTail_UserTickets (t : TicketSystem) (u h v : Int) :
    (refundTail t u h).UserTickets.Load v =
      if v = u then some (h - 1) else t.UserTickets.Load v :=
  Load_Store _ _ _ _

@[simp] theorem refundTail_WaitingUsers (t : TicketSystem) (u h : Int) :
    (refundTail t u h).WaitingUsers = t.WaitingUsers := rfl

theorem refundTail_QueryHistory (t : TicketSystem) (u h v : Int) :
    QueryHistory (refundTail t u h) v =
      if v = u then QueryHistory t v ++ [refundMsg u (wrapInt64 (t.TotalTickets + 1))]
      else QueryHistory t v := by
  rw [refundTail_eq, QueryHistory_AddHistory]; rfl

/-! ## Scenarios -/

/-- Five buys of five distinct users against three tickets. -/
theorem storm_five (a b c d e : Int) (hnd : [a, b, c, d, e].Nodup) :
    ∃ cf : Config, run (initConfig 3) ([a, b, c, d, e].map Event.buy) = some cf ∧
      cf.sys.TotalTickets = 0 ∧ cf.waiters = [d, e] ∧ cf.woken = [] ∧
      (∀ u ∈ [a, b, c], cf.sys.UserTickets.Load u = some 1 ∧
        cf.sys.WaitingUsers.Load u = some false) ∧
      QueryHistory cf.sys a = [purchaseMsg a 2] ∧
      QueryHistory cf.sys b = [purchaseMsg b 1] ∧
      QueryHistory cf.sys c = [purchaseMsg c 0] ∧
      (∀ u ∈ [d, e], cf.sys.UserTickets.Load u = some 0 ∧
        cf.sys.WaitingUsers.Load u = some true ∧ QueryHistory cf.sys u = []) := by
  simp only [List.nodup_cons, List.mem_cons, List.mem_singleton, not_or, List.not_mem_nil,
    not_false_eq_true, List.nodup_nil, and_true] at hnd
  obtain ⟨⟨hab, hac, had, hae⟩, ⟨hbc, hbd, hbe⟩, ⟨hcd, hce⟩, hde⟩ := hnd
  have hba := Ne.symm hab
  have hca := Ne.symm hac
  have hda := Ne.symm had
  have hea := Ne.symm hae
  have hcb := Ne.symm hbc
  have hdb := Ne.symm hbd
  have heb := Ne.symm hbe
  have hdc := Ne.symm hcd
  have hec := Ne.symm hce
  have hed := Ne.symm hde
  have T0 : (0 : Int) < (newTicketSystem 3).TotalTickets := by decide
  have T1 : (buyTail (newTicketSystem 3) a).TotalTickets = 2 := by
    rw [buyTail_TotalTickets _ _ T0]; rfl
  have P1 : (0 : Int) < (buyTail (newTicketSystem 3) a).TotalTickets := by rw [T1]; decide
  have T2 : (buyTail (buyTail (newTicketSystem 3) a) b).TotalTickets = 1 := by
    rw [buyTail_TotalTickets _ _ P1, T1]; rfl
  have P2 : (0 : Int) < (buyTail (buyTail (newTicketSystem 3) a) b).TotalTickets := by
    rw [T2]; decide
  have T3 : (buyTail (buyTail (buyTail (newTicketSystem 3) a) b) c).TotalTickets = 0 := by
    rw [buyTail_TotalTickets _ _ P2, T2]; rfl
  have s1 : step (initConfig 3) (Event.buy a) =
      some { sys := buyTail (newTicketSystem 3) a, waiters := [], woken := [] } :=
    step_buy_done (initConfig 3) a T0 rfl
  have s2 := step_buy_done
    { sys := buyTail (newTicketSystem 3) a, waiters := [], woken := [] } b P1
    (by simp [buyTail_UserTickets _ _ _ T0, hba])
  have s3 := step_buy_done
    { sys := buyTail (buyTail (newTicketSystem 3) a) b, waiters := [], woken := [] } c P2
    (by simp [buyTail_UserTickets _ _ _ T0, buyTail_UserTickets _ _ _ P1, hca, hcb])
  have s4 := step_buy_blocked
    { sys := buyTail (buyTail (buyTail (newTicketSystem 3) a) b) c, waiters := [], woken := [] }
    d T3
    (by simp [buyTail_UserTickets _ _ _ T0, buyTail_UserTickets _ _ _ P1,
      buyTail_UserTickets _ _ _ P2, hda, hdb, hdc])
  have s5 := step_buy_blocked
    { sys := waitLoopBody (buyTail (buyTail (buyTail (newTicketSystem 3) a) b) c) d,
      waiters := [] ++ [d], woken := [] }
    e T3
    (by simp [buyTail_UserTickets _ _ _ T0, buyTail_UserTickets _ _ _ P1,
      buyTail_UserTickets _ _ _ P2, hea, heb, hec, hed])
  refine ⟨Config.mk
      (waitLoopBody (waitLoopBody (buyTail (buyTail (buyTail (newTicketSystem 3) a) b) c) d) e)
      [d, e] [], ?_, ?_⟩
  · simp only [List.map_cons, List.map_nil]
    rw [run_cons_of_step _ _ _ _ s1, run_cons_of_step _ _ _ _ s2, run_cons_of_step _ _ _ _ s3,
      run_cons_of_step _ _ _ _ s4, run_cons_of_step _ _ _ _ s5]
    rfl
  · simp [buyTail_UserTickets _ _ _ T0, buyTail_UserTickets _ _ _ P1,
      buyTail_UserTickets _ _ _ P2, buyTail_WaitingUsers _ _ _ T0, buyTail_WaitingUsers _ _ _ P1,
      buyTail_WaitingUsers _ _ _ P2, buyTail_QueryHistory _ _ _ T0, buyTail_QueryHistory _ _ _ P1,
      buyTail_QueryHistory _ _ _ P2, T3, T2, T1,
      hab, hac, had, hae, hbc, hbd, hbe, hcd, hce, hde, hba, hca, hda, hea, hcb, hdb, heb, hdc,
      hec, hed]

/-- Claim C9 (acquire storm): with three tickets and empty maps, whatever
the order in which the five requests `HandleBuyRequest(0..4)` get the mutex,
all five sections run and then `TotalTickets` is `0`, exactly three of the
users hold `1` (the first three served) and have one purchase line as their
history, and the two others are parked in `Wait`, flagged waiting, holding
`0`; nobody has been signalled. -/
theorem storm_scenario (order : List Int) (hperm : order.Perm [0, 1, 2, 3, 4]) :
    ∃ cf : Config, run (initConfig 3) (order.map Event.buy) = some cf ∧
      cf.sys.TotalTickets = 0 ∧
      ([0, 1, 2, 3, 4].filter (fun u => decide (QueryTickets cf.sys u = 1))).length = 3 ∧
      (∀ u ∈ order.take 3, QueryTickets cf.sys u = 1 ∧
        ∃ n : Int, QueryHistory cf.sys u = [purchaseMsg u n]) ∧
      cf.waiters = order.drop 3 ∧ cf.waiters.length = 2 ∧ cf.woken = [] ∧
      (∀ u ∈ order.drop 3, cf.sys.WaitingUsers.Load u = some true ∧
        cf.sys.UserTickets.Load u = some 0 ∧ QueryTickets cf.sys u = 0) := by
  have hlen : order.length = 5 := hperm.length_eq
  have hnd : order.Nodup := hperm.nodup_iff.mpr (by decide)
  rcases order with _ | ⟨a, _ | ⟨b, _ | ⟨c, _ | ⟨d, _ | ⟨e, _ | ⟨f, rest⟩⟩⟩⟩⟩⟩ <;>
    simp only [List.length_nil, List.length_cons] at hlen <;> try omega
  obtain ⟨cf, hrun, hT, hwait, hwoken, hhold, hha, hhb, hhc, hblocked⟩ := storm_five a b c d e hnd
  have ha := hhold a (by simp)
  have hb := hhold b (by simp)
  have hc := hhold c (by simp)
  have hd := hblocked d (by simp)
  have he := hblocked e (by simp)
  refine ⟨cf, hrun, hT, ?_, ?_, ?_, ?_, hwoken, ?_⟩
  · rw [← (hperm.filter _).length_eq]
    simp [List.filter, QueryTickets_eq, ha.1, hb.1, hc.1, hd.1, he.1]
  · intro u hu
    simp only [List.take, List.mem_cons, List.mem_singleton, List.not_mem_nil, or_false] at hu
    rcases hu with rfl | rfl | rfl
    · exact ⟨by simp [QueryTickets_eq, ha.1], 2, hha⟩
    · exact ⟨by simp [QueryTickets_eq, hb.1], 1, hhb⟩
    · exact ⟨by simp [QueryTickets_eq, hc.1], 0, hhc⟩
  · rw [hwait]; rfl
  · rw [hwait]; rfl
  · intro u hu
    simp only [List.drop, List.mem_cons, List.mem_singleton, List.not_mem_nil, or_false] at hu
    rcases hu with rfl | rfl
    · exact ⟨hd.2.1, hd.1, by simp [QueryTickets_eq, hd.1]⟩
    · exact ⟨he.2.1, he.1, by simp [QueryTickets_eq, he.1]⟩

theorem storm_scenario_witness :
    ([3, 1, 4, 0, 2] : List Int).Perm [0, 1, 2, 3, 4] ∧
    ∃ cf : Config, run (initConfig 3) (([3, 1, 4, 0, 2] : List Int).map Event.buy) = some cf ∧
      cf.sys.TotalTickets = 0 ∧ cf.waiters = [0, 2] :=
  have hp : ([3, 1, 4, 0, 2] : List Int).Perm [0, 1, 2, 3, 4] := by decide
  have h := storm_scenario [3, 1, 4, 0, 2] hp
  ⟨hp, h.elim fun cf hcf => ⟨cf, hcf.1, hcf.2.1, hcf.2.2.2.2.1⟩⟩

/-- Claim C10 (hand-over): with one ticket and empty maps and `B ≠ A`,
`HandleBuyRequest(A)` succeeds and leaves `TotalTickets = 0`;
`HandleBuyRequest(B)` is then parked in `Wait`; `HandleRefundRequest(A)`
returns the ticket and signals the request of `B`, which runs again and
succeeds. In the final state `TotalTickets` is `0`, `B` holds `1`, `A` holds
`0`, the waiting flag of `B` is `false`, and no request is left. -/
theorem handover_scenario (A B : Int) (hne : B ≠ A) :
    ∃ c1 c2 c3 c4 : Config,
      step (initConfig 1) (Event.buy A) = some c1 ∧
        c1.sys.TotalTickets = 0 ∧ QueryTickets c1.sys A = 1 ∧ c1.waiters = [] ∧ c1.woken = [] ∧
      step c1 (Event.buy B) = some c2 ∧
        c2.waiters = [B] ∧ c2.woken = [] ∧ c2.sys.TotalTickets = 0 ∧
        c2.sys.WaitingUsers.Load B = some true ∧ QueryTickets c2.sys B = 0 ∧
      step c2 (Event.refund A 0) = some c3 ∧
        c3.waiters = [] ∧ c3.woken = [B] ∧ c3.sys.TotalTickets = 1 ∧
      step c3 (Event.resume 0) = some c4 ∧
        c4.waiters = [] ∧ c4.woken = [] ∧ c4.sys.TotalTickets = 0 ∧
        QueryTickets c4.sys B = 1 ∧ QueryTickets c4.sys A = 0 ∧
        c4.sys.WaitingUsers.Load B = some false ∧
      run (initConfig 1) [Event.buy A, Event.buy B, Event.refund A 0, Event.resume 0] =
        some c4 := by
  have hne' : A ≠ B := Ne.symm hne
  have T0 : (0 : Int) < (newTicketSystem 1).TotalTickets := by decide
  have T1 : (buyTail (newTicketSystem 1) A).TotalTickets = 0 := by
    rw [buyTail_TotalTickets _ _ T0]; rfl
  have s1 : step (initConfig 1) (Event.buy A) =
      some (Config.mk (buyTail (newTicketSystem 1) A) [] []) :=
    step_buy_done (initConfig 1) A T0 rfl
  have s2 : step (Config.mk (buyTail (newTicketSystem 1) A) [] []) (Event.buy B) =
      some (Config.mk (waitLoopBody (buyTail (newTicketSystem 1) A) B) [B] []) :=
    step_buy_blocked (Config.mk (buyTail (newTicketSystem 1) A) [] []) B T1
      (by simp [buyTail_UserTickets _ _ _ T0, hne])
  have hA : (waitLoopBody (buyTail (newTicketSystem 1) A) B).UserTickets.Load A = some 1 := by
    simp [buyTail_UserTickets _ _ _ T0, hne']
  have s3 : step (Config.mk (waitLoopBody (buyTail (newTicketSystem 1) A) B) [B] [])
      (Event.refund A 0) =
      some (Config.mk (refundTail (waitLoopBody (buyTail (newTicketSystem 1) A) B) A 1) [] [B]) :=
    step_refund_signal (Config.mk (waitLoopBody (buyTail (newTicketSystem 1) A) B) [B] [])
      A 1 B [] hA (by decide) rfl
  have T3 : (refundTail (waitLoopBody (buyTail (newTicketSystem 1) A) B) A 1).TotalTickets = 1 := by
    rw [refundTail_TotalTickets, waitLoopBody_TotalTickets, T1]
    decide
  have P3 : (0 : Int) <
      (refundTail (waitLoopBody (buyTail (newTicketSystem 1) A) B) A 1).TotalTickets := by
    rw [T3]; decide
  have s4 : step
      (Config.mk (refundTail (waitLoopBody (buyTail (newTicketSystem 1) A) B) A 1) [] [B])
      (Event.resume 0) =
      some (Config.mk
        (buyTail (refundTail (waitLoopBody (buyTail (newTicketSystem 1) A) B) A 1) B) [] []) :=
    step_resume_done _ B [] rfl P3
  refine ⟨_, _, _, _, s1, T1, ?_, rfl, rfl, s2, rfl, rfl, T1, ?_, ?_, s3, rfl, rfl, T3, s4,
    rfl, rfl, ?_, ?_, ?_, ?_, ?_⟩
  · simp [QueryTickets_eq, buyTail_UserTickets _ _ _ T0]
  · simp
  · simp [QueryTickets_eq]
  · rw [buyTail_TotalTickets _ _ P3, T3]; rfl
  · simp [QueryTickets_eq, buyTail_UserTickets _ _ _ P3]
  · simp [QueryTickets_eq, buyTail_UserTickets _ _ _ P3, hne']
  · simp [buyTail_WaitingUsers _ _ _ P3]
  · rw [run_cons_of_step _ _ _ _ s1, run_cons_of_step _ _ _ _ s2, run_cons_of_step _ _ _ _ s3,
      run_cons_of_step _ _ _ _ s4]
    rfl

theorem handover_scenario_witness :
    (5 : Int) ≠ 4 ∧
    ∃ c4 : Config, run (initConfig 1)
        [Event.buy 4, Event.buy 5, Event.refund 4 0, Event.resume 0] = some c4 ∧
      c4.sys.TotalTickets = 0 ∧ QueryTickets c4.sys 5 = 1 ∧ QueryTickets c4.sys 4 = 0 :=
  have hne : (5 : Int) ≠ 4 := by decide
  have h := handover_scenario 4 5 hne
  ⟨hne, h.elim fun _ h1 => h1.elim fun _ h2 => h2.elim fun _ h3 => h3.elim fun c4 h4 =>
    ⟨c4, h4.2.2.2.2.2.2.2.2.2.2.2.2.2.2.2.2.2.2.2.2.2.2,
      h4.2.2.2.2.2.2.2.2.2.2.2.2.2.2.2.2.2.2.1,
      h4.2.2.2.2.2.2.2.2.2.2.2.2.2.2.2.2.2.2.2.1,
      h4.2.2.2.2.2.2.2.2.2.2.2.2.2.2.2.2.2.2.2.2.1⟩⟩

/-! ## Conservation -/

/-- Claim C1 evaluated on the code: with two tickets, `lostTicketSchedule`
(two requests of user `2` in flight at once) runs and ends with no request
left, `TotalTickets = 0` and holdings summing to `1`: one ticket is gone. -/
theorem conservation_lost_ticket :
    ∃ c : Config, run (initConfig 2) lostTicketSchedule = some c ∧ Reachable 2 c ∧
      c.waiters = [] ∧ c.woken = [] ∧
      c.sys.TotalTickets = 0 ∧ c.sys.UserTickets.entries = [(0, 0), (1, 0), (2, 1)] ∧
      totalHeld c.sys = 1 ∧ c.sys.TotalTickets + totalHeld c.sys ≠ 2 := by
  have hrun := run_eq_runFrom (initConfig 2) lostTicketSchedule (by decide)
  refine ⟨runFrom (initConfig 2) lostTicketSchedule, hrun,
    reachable_run 2 _ _ _ (Reachable.init (by decide) (by decide)) hrun, ?_, ?_, ?_, ?_, ?_, ?_⟩ <;> decide

/-! ## The counter stays between `0` and the supply -/

theorem loadList_mem {α : Type} (k : Int) (v : α) (l : List (Int × α))
    (h : loadList k l = some v) : (k, v) ∈ l := by
  induction l with
  | nil => simp [loadList] at h
  | cons e rest ih =>
      obtain ⟨k', v'⟩ := e
      by_cases hk : k' = k
      · simp only [loadList, hk, if_true, Option.some.injEq] at h
        simp [hk, h]
      · simp only [loadList, hk, if_false] at h
        exact List.mem_cons_of_mem _ (ih h)

theorem getD_Load_nonneg (t : TicketSystem) (k : Int)
    (h : ∀ e ∈ t.UserTickets.entries, 0 ≤ e.2) : 0 ≤ (t.UserTickets.Load k).getD 0 := by
  cases hl : t.UserTickets.Load k with
  | none => simp
  | some v => exact h (k, v) (loadList_mem k v _ hl)

theorem values_Store (m : SyncMap Int) (k v : Int) (hv : 0 ≤ v)
    (h : ∀ e ∈ m.entries, 0 ≤ e.2) : ∀ e ∈ (m.Store k v).entries, 0 ≤ e.2 := by
  intro e he
  rcases mem_storeList k v m.entries e he with h1 | h1
  · rw [h1]; exact hv
  · exact h e h1

theorem Bounded_waitLoopBody (supply : Int) (t : TicketSystem) (id : Int)
    (h : Bounded supply t) : Bounded supply (waitLoopBody t id) := by
  obtain ⟨hv, h0, hs⟩ := h
  refine ⟨values_Store _ id 0 (le_refl 0) hv, h0, ?_⟩
  have hsum : totalHeld (waitLoopBody t id) = totalHeld t - (t.UserTickets.Load id).getD 0 + 0 :=
    totalHeld_Store t id 0
  have hn := getD_Load_nonneg t id hv
  have ht : (waitLoopBody t id).TotalTickets = t.TotalTickets := rfl
  omega

theorem Bounded_buyTail (supply : Int) (t : TicketSystem) (id : Int)
    (h : Bounded supply t) : Bounded supply (buyTail t id) := by
  obtain ⟨hv, h0, hs⟩ := h
  by_cases hT : 0 < t.TotalTickets
  · rw [buyTail_of_pos t id hT]
    refine ⟨values_Store _ id 1 (by decide) hv, ?_, ?_⟩
    · show 0 ≤ t.TotalTickets - 1
      omega
    · have hsum : totalHeld (AddHistory
          { t with
            TotalTickets := t.TotalTickets - 1
            UserTickets := t.UserTickets.Store id 1
            WaitingUsers := t.WaitingUsers.Store id false
            Log := t.Log ++ [purchaseMsg id (t.TotalTickets - 1)] }
          id (purchaseMsg id (t.TotalTickets - 1))) =
          totalHeld t - (t.UserTickets.Load id).getD 0 + 1 := totalHeld_Store t id 1
      have hn := getD_Load_nonneg t id hv
      show t.TotalTickets - 1 + _ ≤ supply
      omega
  · have hT' : ¬ t.TotalTickets > 0 := hT
    simp only [buyTail, hT', if_false]
    exact ⟨hv, h0, hs⟩

theorem Bounded_buyLoop (supply : Int) (t : TicketSystem) (id : Int)
    (h : Bounded supply t) : Bounded supply (buyLoop t id).2 := by
  unfold buyLoop
  split
  · exact Bounded_waitLoopBody supply t id h
  · exact Bounded_buyTail supply t id h

theorem Bounded_HandleBuyRequest (supply : Int) (t : TicketSystem) (id : Int)
    (h : Bounded supply t) : Bounded supply (HandleBuyRequest t id).2 := by
  unfold HandleBuyRequest
  split
  · split
    · exact h
    · exact Bounded_buyLoop supply t id h
  · exact Bounded_buyLoop supply t id h

theorem Load_le_totalHeld (t : TicketSystem) (hv : ∀ e ∈ t.UserTickets.entries, 0 ≤ e.2)
    (id count : Int) (hl : t.UserTickets.Load id = some count) : count ≤ totalHeld t := by
  have hm : (id, count) ∈ t.UserTickets.entries := loadList_mem id count _ hl
  have hx : count ∈ t.UserTickets.entries.map Prod.snd := List.mem_map.mpr ⟨(id, count), hm, rfl⟩
  refine List.single_le_sum ?_ count hx
  intro x hx'
  obtain ⟨e, he, rfl⟩ := List.mem_map.mp hx'
  exact hv e he

/-- A holder exists, so the counter is below the supply. -/
theorem Bounded_lt_of_holder (supply : Int) (t : TicketSystem) (h : Bounded supply t)
    (id count : Int) (hl : t.UserTickets.Load id = some count) (hc : 0 < count) :
    t.TotalTickets < supply := by
  have := Load_le_totalHeld t h.1 id count hl
  have := h.2.2
  omega

theorem Bounded_HandleRefundRequest (supply : Int) (hmax : supply ≤ maxInt64)
    (t t' : TicketSystem) (id : Int) (b : Bool)
    (h : Bounded supply t) (hr : HandleRefundRequest t id = Except.ok (b, t')) :
    Bounded supply t' := by
  have hB := h
  obtain ⟨hv, h0, hs⟩ := h
  unfold HandleRefundRequest at hr
  split at hr
  · exact absurd hr (by simp)
  · rename_i count hl
    split at hr
    · rename_i hc
      simp only [Except.ok.injEq, Prod.mk.injEq] at hr
      rw [← hr.2]
      have hlt : t.TotalTickets < maxInt64 := by
        have := Bounded_lt_of_holder supply t hB id count hl hc
        omega
      have hw := wrapInt64_succ_of_nonneg t.TotalTickets h0 hlt
      refine ⟨values_Store _ id (count - 1) (by omega) hv, ?_, ?_⟩
      · show 0 ≤ wrapInt64 (t.TotalTickets + 1)
        omega
      · have hsum : totalHeld (refundTail t id count) =
            totalHeld t - (t.UserTickets.Load id).getD 0 + (count - 1) :=
          totalHeld_Store t id (count - 1)
        rw [hl] at hsum
        simp only [Option.getD_some] at hsum
        show wrapInt64 (t.TotalTickets + 1) + _ ≤ supply
        omega
    · simp only [Except.ok.injEq, Prod.mk.injEq] at hr
      rw [← hr.2]
      exact ⟨hv, h0, hs⟩

theorem Bounded_step (supply : Int) (hmax : supply ≤ maxInt64) (c c' : Config) (e : Event)
    (h : Bounded supply c.sys) (hs : step c e = some c') : Bounded supply c'.sys := by
  cases e with
  | buy id =>
      simp only [step, Option.some.injEq] at hs
      rw [← hs, endBuySection_sys]
      exact Bounded_HandleBuyRequest supply c.sys id h
  | refund id w =>
      simp only [step] at hs
      split at hs
      · exact absurd hs (by simp)
      · rename_i t hr
        rw [signal_sys _ _ _ hs]
        exact Bounded_HandleRefundRequest supply hmax c.sys t id true h hr
      · rename_i t hr
        simp only [Option.some.injEq] at hs
        rw [← hs]
        exact Bounded_HandleRefundRequest supply hmax c.sys t id false h hr
  | resume r =>
      simp only [step] at hs
      split at hs
      · exact absurd hs (by simp)
      · simp only [Option.some.injEq] at hs
        rw [← hs, endBuySection_sys]
        exact Bounded_buyLoop supply c.sys _ h

theorem reachable_supply_range (supply : Int) (c : Config) (hc : Reachable supply c) :
    minInt64 ≤ supply ∧ supply ≤ maxInt64 := by
  induction hc with
  | init h1 h2 => exact ⟨h1, h2⟩
  | step _ _ _ _ _ ih => exact ih

/-- In every reachable state the counter lies between `0` and the supply,
so the `++` and `--` of the handlers never leave the range of a Go `int`. -/
theorem reachable_Bounded (supply : Int) (hs : 0 ≤ supply) (c : Config)
    (hc : Reachable supply c) :
    Bounded supply c.sys ∧ 0 ≤ c.sys.TotalTickets ∧ c.sys.TotalTickets ≤ supply := by
  have hmax := (reachable_supply_range supply c hc).2
  have hb : Bounded supply c.sys := by
    induction hc with
    | init _ _ =>
        refine ⟨?_, hs, ?_⟩
        · intro e he
          cases he
        · show supply + 0 ≤ supply
          omega
    | step c c' e _ hstep ih => exact Bounded_step supply hmax c c' e ih hstep
  refine ⟨hb, hb.2.1, ?_⟩
  have hsum : 0 ≤ totalHeld c.sys := List.sum_nonneg (by
    intro x hx
    obtain ⟨e, he, rfl⟩ := List.mem_map.mp hx
    exact hb.1 e he)
  have := hb.2.2
  omega

/-- Claim C2 (no negative pool): started with a supply that is at least `0`,
`TotalTickets` is at least `0` in every state the system reaches by atomic
sections of `HandleBuyRequest` and `HandleRefundRequest`, in any order. -/
theorem no_negative_pool (supply : Int) (hs : 0 ≤ supply) (c : Config)
    (hc : Reachable supply c) : 0 ≤ c.sys.TotalTickets := by
  exact (reachable_Bounded supply hs c hc).2.1

theorem no_negative_pool_witness :
    (0 : Int) ≤ 2 ∧ 0 ≤ (runFrom (initConfig 2) lostTicketSchedule).sys.TotalTickets :=
  ⟨by decide,
   no_negative_pool 2 (by decide) (runFrom (initConfig 2) lostTicketSchedule)
    (reachable_run 2 lostTicketSchedule (initConfig 2) _ (Reachable.init (by decide) (by decide))
      (run_eq_runFrom (initConfig 2) lostTicketSchedule (by decide)))⟩


/-! ## The two listings -/

theorem rangeWaiting_eq (ws : List (Int × Bool)) (users : List Int) :
    rangeWaiting ws users = users ++ (ws.filter (fun e => e.2)).map Prod.fst := by
  unfold rangeWaiting
  induction ws generalizing users with
  | nil => simp
  | cons e rest ih =>
      rw [List.foldl_cons, ih]
      cases h : e.2 <;> simp [List.filter, h]

theorem rangeWithTickets_eq (us : List (Int × Int)) (users : List Int) :
    rangeWithTickets us users =
      users ++ (us.filter (fun e => decide (e.2 > 0))).map Prod.fst := by
  unfold rangeWithTickets
  induction us generalizing users with
  | nil => simp
  | cons e rest ih =>
      rw [List.foldl_cons, ih]
      by_cases h : e.2 > 0 <;> simp [List.filter, h]

theorem rangeNoTickets_nodup (us : List (Int × Int)) (users : List Int) (h : users.Nodup) :
    (rangeNoTickets us users).Nodup := by
  unfold rangeNoTickets
  induction us generalizing users with
  | nil => exact h
  | cons e rest ih =>
      rw [List.foldl_cons]
      apply ih
      by_cases h0 : e.2 = 0
      · by_cases hm : e.1 ∈ users
        · have ha : users.any (fun id => decide (id = e.1)) = true := by
            simp only [List.any_eq_true, decide_eq_true_eq]
            exact ⟨e.1, hm, rfl⟩
          simp only [h0, if_true, ha]
          exact h
        · have ha : ¬ users.any (fun id => decide (id = e.1)) = true := by
            simp only [List.any_eq_true, decide_eq_true_eq, not_exists, not_and]
            intro x hx hxe
            exact hm (hxe ▸ hx)
          simp only [h0, if_true, ha, if_false]
          exact List.Nodup.append h (List.nodup_singleton _) (by simpa using hm)
      · simp only [h0, if_false]
        exact h

theorem mem_rangeNoTickets (us : List (Int × Int)) (users : List Int) (u : Int) :
    u ∈ rangeNoTickets us users ↔ u ∈ users ∨ (u, 0) ∈ us := by
  unfold rangeNoTickets
  induction us generalizing users with
  | nil => simp
  | cons e rest ih =>
      obtain ⟨k, v⟩ := e
      rw [List.foldl_cons, ih]
      by_cases h0 : v = 0
      · subst h0
        by_cases ha : users.any (fun id => decide (id = k)) = true
        · have hm : k ∈ users := by
            simp only [List.any_eq_true, decide_eq_true_eq] at ha
            obtain ⟨x, hx, rfl⟩ := ha
            exact hx
          simp only [if_true, ha, List.mem_cons, Prod.mk.injEq, and_true]
          constructor
          · rintro (h | h)
            · exact Or.inl h
            · exact Or.inr (Or.inr h)
          · rintro (h | h | h)
            · exact Or.inl h
            · exact Or.inl (h ▸ hm)
            · exact Or.inr h
        · simp only [if_true]
          rw [if_neg ha]
          simp only [List.mem_append, List.mem_singleton, List.mem_cons, Prod.mk.injEq, and_true]
          tauto
      · have h0' : ¬ (0 : Int) = v := fun h => h0 h.symm
        simp only [h0, if_false, List.mem_cons, Prod.mk.injEq, h0', and_false, false_or]

theorem mem_iff_loadList {α : Type} (l : List (Int × α)) (hnd : (l.map Prod.fst).Nodup)
    (k : Int) (v : α) : (k, v) ∈ l ↔ loadList k l = some v := by
  refine ⟨?_, loadList_mem k v l⟩
  induction l with
  | nil => intro h; cases h
  | cons e rest ih =>
      obtain ⟨k', v'⟩ := e
      intro h
      simp only [List.map_cons, List.nodup_cons, List.mem_map, not_exists, not_and] at hnd
      rcases List.mem_cons.mp h with h1 | h1
      · simp only [Prod.mk.injEq] at h1
        simp [loadList, h1.1, h1.2]
      · have hne : ¬ k' = k := by
          intro hk
          exact hnd.1 (k, v) h1 hk.symm
        simp only [loadList, hne, if_false]
        exact ih hnd.2 h1

theorem SyncMap.mem_entries_iff {α : Type} (m : SyncMap α) (k : Int) (v : α) :
    (k, v) ∈ m.entries ↔ m.Load k = some v :=
  mem_iff_loadList m.entries m.nodup k v

theorem nodup_filter_keys {α : Type} (l : List (Int × α)) (p : Int × α → Bool)
    (hnd : (l.map Prod.fst).Nodup) : ((l.filter p).map Prod.fst).Nodup :=
  List.Nodup.sublist (List.Sublist.map Prod.fst (List.filter_sublist l)) hnd

theorem mem_filter_keys {α : Type} (l : List (Int × α)) (p : Int × α → Bool) (u : Int) :
    u ∈ (l.filter p).map Prod.fst ↔ ∃ v : α, (u, v) ∈ l ∧ p (u, v) = true := by
  simp only [List.mem_map, List.mem_filter]
  constructor
  · rintro ⟨⟨k, v⟩, ⟨hm, hp⟩, rfl⟩
    exact ⟨v, hm, hp⟩
  · rintro ⟨v, hm, hp⟩
    exact ⟨(u, v), ⟨hm, hp⟩, rfl⟩

/-- Whatever the order in which the two `Range` calls visit the entries, the
slice built by `GetUsersWithoutTickets` has no duplicates and holds exactly
the flagged users and the users with a stored `0`. -/
theorem usersWithout_anyOrder (t : TicketSystem) (ws : List (Int × Bool))
    (us : List (Int × Int)) (hw : ws.Perm t.WaitingUsers.entries)
    (hu : us.Perm t.UserTickets.entries) :
    (rangeNoTickets us (rangeWaiting ws [])).Nodup ∧
    ∀ u : Int, u ∈ rangeNoTickets us (rangeWaiting ws []) ↔
      (t.WaitingUsers.Load u = some true ∨ t.UserTickets.Load u = some 0) := by
  have hwn : (ws.map Prod.fst).Nodup := (hw.map Prod.fst).nodup_iff.mpr t.WaitingUsers.nodup
  constructor
  · apply rangeNoTickets_nodup
    rw [rangeWaiting_eq, List.nil_append]
    exact nodup_filter_keys ws _ hwn
  · intro u
    rw [mem_rangeNoTickets, rangeWaiting_eq, List.nil_append, mem_filter_keys, hu.mem_iff,
      SyncMap.mem_entries_iff]
    have key : (∃ v : Bool, (u, v) ∈ ws ∧ (fun e : Int × Bool => e.2) (u, v) = true) ↔
        t.WaitingUsers.Load u = some true := by
      rw [← SyncMap.mem_entries_iff, ← hw.mem_iff]
      constructor
      · rintro ⟨v, hm, hv⟩
        have hv' : v = true := hv
        rw [← hv']; exact hm
      · intro hm
        exact ⟨true, hm, rfl⟩
    rw [key]

/-- Whatever the order in which `Range` visits the entries, the slice built
by `GetUsersWithTickets` has no duplicates and holds exactly the users with a
stored count above `0`. -/
theorem usersWith_anyOrder (t : TicketSystem) (us : List (Int × Int))
    (hu : us.Perm t.UserTickets.entries) :
    (rangeWithTickets us []).Nodup ∧
    ∀ u : Int, u ∈ rangeWithTickets us [] ↔ ∃ n : Int, t.UserTickets.Load u = some n ∧ 0 < n := by
  have hun : (us.map Prod.fst).Nodup := (hu.map Prod.fst).nodup_iff.mpr t.UserTickets.nodup
  constructor
  · rw [rangeWithTickets_eq, List.nil_append]
    exact nodup_filter_keys us _ hun
  · intro u
    rw [rangeWithTickets_eq, List.nil_append, mem_filter_keys]
    constructor
    · rintro ⟨v, hm, hv⟩
      refine ⟨v, (SyncMap.mem_entries_iff _ _ _).mp (hu.mem_iff.mp hm), ?_⟩
      simpa using hv
    · rintro ⟨n, hl, hn⟩
      refine ⟨n, hu.mem_iff.mpr ((SyncMap.mem_entries_iff _ _ _).mpr hl), ?_⟩
      simpa using hn

theorem mem_GetUsersWithoutTickets (t : TicketSystem) (u : Int) :
    u ∈ GetUsersWithoutTickets t ↔
      (t.WaitingUsers.Load u = some true ∨ t.UserTickets.Load u = some 0) :=
  (usersWithout_anyOrder t t.WaitingUsers.entries t.UserTickets.entries
    (List.Perm.refl _) (List.Perm.refl _)).2 u

theorem mem_GetUsersWithTickets (t : TicketSystem) (u : Int) :
    u ∈ GetUsersWithTickets t ↔ ∃ n : Int, t.UserTickets.Load u = some n ∧ 0 < n :=
  (usersWith_anyOrder t t.UserTickets.entries (List.Perm.refl _)).2 u

theorem mem_GetUsersWithTickets_iff (t : TicketSystem) (u : Int) :
    u ∈ GetUsersWithTickets t ↔ 0 < QueryTickets t u := by
  rw [mem_GetUsersWithTickets, QueryTickets_eq]
  cases hl : t.UserTickets.Load u with
  | none => simp
  | some n => simp

/-- Claim C11: in every state the slice `GetUsersWithoutTickets` returns has
no duplicates, and its members are exactly the users `u` with
`WaitingUsers[u]` true or with a `UserTickets` entry of value `0`. The method
is a function of the state: it writes only its local slice. -/
theorem GetUsersWithoutTickets_spec (t : TicketSystem) :
    (GetUsersWithoutTickets t).Nodup ∧
    ∀ u : Int, u ∈ GetUsersWithoutTickets t ↔
      (t.WaitingUsers.Load u = some true ∨ t.UserTickets.Load u = some 0) :=
  usersWithout_anyOrder t t.WaitingUsers.entries t.UserTickets.entries
    (List.Perm.refl _) (List.Perm.refl _)

/-- Claim C12: in every state the slice `GetUsersWithTickets` returns has no
duplicates, and its members are exactly the users with a `UserTickets` entry
above `0`, which are exactly the users `u` with `QueryTickets(u) > 0`. The
method is a function of the state: it writes only its local slice. -/
theorem GetUsersWithTickets_spec (t : TicketSystem) :
    (GetUsersWithTickets t).Nodup ∧
    (∀ u : Int, u ∈ GetUsersWithTickets t ↔
      ∃ n : Int, t.UserTickets.Load u = some n ∧ 0 < n) ∧
    (∀ u : Int, u ∈ GetUsersWithTickets t ↔ 0 < QueryTickets t u) := by
  have h := usersWith_anyOrder t t.UserTickets.entries (List.Perm.refl _)
  exact ⟨h.1, h.2, mem_GetUsersWithTickets_iff t⟩

/-! ## Holdings are `0` or `1` -/

/-- A property of the shared memory that every handler section keeps is kept
by every atomic section of the concurrent system. -/
theorem sys_invariant_step (P : TicketSystem → Prop)
    (hbuy : ∀ (t : TicketSystem) (id : Int), P t → P (HandleBuyRequest t id).2)
    (hloop : ∀ (t : TicketSystem) (id : Int), P t → P (buyLoop t id).2)
    (hrefund : ∀ (t t' : TicketSystem) (id : Int) (b : Bool), P t →
      HandleRefundRequest t id = Except.ok (b, t') → P t')
    (c c' : Config) (e : Event) (h : P c.sys) (hs : step c e = some c') : P c'.sys := by
  cases e with
  | buy id =>
      simp only [step, Option.some.injEq] at hs
      rw [← hs, endBuySection_sys]
      exact hbuy c.sys id h
  | refund id w =>
      simp only [step] at hs
      split at hs
      · exact absurd hs (by simp)
      · rename_i t hr
        rw [signal_sys _ _ _ hs]
        exact hrefund c.sys t id true h hr
      · rename_i t hr
        simp only [Option.some.injEq] at hs
        rw [← hs]
        exact hrefund c.sys t id false h hr
  | resume r =>
      simp only [step] at hs
      split at hs
      · exact absurd hs (by simp)
      · simp only [Option.some.injEq] at hs
        rw [← hs, endBuySection_sys]
        exact hloop c.sys _ h

theorem forall_Store (m : SyncMap Int) (k v : Int) (P : Int → Prop) (hv : P v)
    (h : ∀ e ∈ m.entries, P e.2) : ∀ e ∈ (m.Store k v).entries, P e.2 := by
  intro e he
  rcases mem_storeList k v m.entries e he with h1 | h1
  · rw [h1]; exact hv
  · exact h e h1

theorem Binary_waitLoopBody (t : TicketSystem) (id : Int) (h : Binary t) :
    Binary (waitLoopBody t id) :=
  forall_Store t.UserTickets id 0 (fun n => n = 0 ∨ n = 1) (Or.inl rfl) h

theorem Binary_buyTail (t : TicketSystem) (id : Int) (h : Binary t) :
    Binary (buyTail t id) := by
  by_cases hT : 0 < t.TotalTickets
  · rw [buyTail_of_pos t id hT]
    exact forall_Store t.UserTickets id 1 (fun n => n = 0 ∨ n = 1) (Or.inr rfl) h
  · have hT' : ¬ t.TotalTickets > 0 := hT
    simp only [buyTail, hT', if_false]
    exact h

theorem Binary_buyLoop (t : TicketSystem) (id : Int) (h : Binary t) :
    Binary (buyLoop t id).2 := by
  unfold buyLoop
  split
  · exact Binary_waitLoopBody t id h
  · exact Binary_buyTail t id h

theorem Binary_HandleBuyRequest (t : TicketSystem) (id : Int) (h : Binary t) :
    Binary (HandleBuyRequest t id).2 := by
  unfold HandleBuyRequest
  split
  · split
    · exact h
    · exact Binary_buyLoop t id h
  · exact Binary_buyLoop t id h

theorem Binary_Load (t : TicketSystem) (h : Binary t) (u n : Int)
    (hl : t.UserTickets.Load u = some n) : n = 0 ∨ n = 1 :=
  h (u, n) (loadList_mem u n _ hl)

theorem Binary_HandleRefundRequest (t t' : TicketSystem) (id : Int) (b : Bool)
    (h : Binary t) (hr : HandleRefundRequest t id = Except.ok (b, t')) : Binary t' := by
  unfold HandleRefundRequest at hr
  split at hr
  · exact absurd hr (by simp)
  · rename_i count hl
    split at hr
    · rename_i hc
      simp only [Except.ok.injEq, Prod.mk.injEq] at hr
      rw [← hr.2]
      have h1 : count - 1 = 0 := by
        rcases Binary_Load t h id count hl with h0 | h0 <;> omega
      exact forall_Store t.UserTickets id (count - 1) (fun n => n = 0 ∨ n = 1) (Or.inl h1) h
    · simp only [Except.ok.injEq, Prod.mk.injEq] at hr
      rw [← hr.2]
      exact h

theorem reachable_Binary (supply : Int) (c : Config) (hc : Reachable supply c) :
    Binary c.sys := by
  induction hc with
  | init => intro e he; cases he
  | step c c' e _ hstep ih =>
      exact sys_invariant_step Binary Binary_HandleBuyRequest Binary_buyLoop
        Binary_HandleRefundRequest c c' e ih hstep

/-- Claim C13 (holding is binary): in every state reached from the initial
state by sections of `HandleBuyRequest` and `HandleRefundRequest`, every
value stored in `UserTickets` is `0` or `1`, and so is every answer of
`QueryTickets`. -/
theorem holding_binary (supply : Int) (c : Config) (hc : Reachable supply c) :
    (∀ e ∈ c.sys.UserTickets.entries, e.2 = 0 ∨ e.2 = 1) ∧
    (∀ u n : Int, c.sys.UserTickets.Load u = some n → n = 0 ∨ n = 1) ∧
    (∀ u : Int, QueryTickets c.sys u = 0 ∨ QueryTickets c.sys u = 1) := by
  have hb := reachable_Binary supply c hc
  refine ⟨hb, Binary_Load c.sys hb, ?_⟩
  intro u
  rw [QueryTickets_eq]
  cases hl : c.sys.UserTickets.Load u with
  | none => exact Or.inl rfl
  | some n => exact Binary_Load c.sys hb u n hl

theorem holding_binary_witness :
    QueryTickets (runFrom (initConfig 2) lostTicketSchedule).sys 2 = 0 ∨
    QueryTickets (runFrom (initConfig 2) lostTicketSchedule).sys 2 = 1 :=
  (holding_binary 2 (runFrom (initConfig 2) lostTicketSchedule)
    (reachable_run 2 lostTicketSchedule (initConfig 2) _ (Reachable.init (by decide) (by decide))
      (run_eq_runFrom (initConfig 2) lostTicketSchedule (by decide)))).2.2 2

/-! ## The shape of each atomic section -/

theorem perm_eraseIdx (l : List Int) (w : Nat) (b : Int) (h : l.get? w = some b) :
    l.Perm (b :: l.eraseIdx w) := by
  induction l generalizing w with
  | nil => simp at h
  | cons x rest ih =>
      cases w with
      | zero =>
          simp only [List.get?_cons_zero, Option.some.injEq] at h
          rw [h]
          exact List.Perm.refl _
      | succ n =>
          simp only [List.get?_cons_succ] at h
          simp only [List.eraseIdx_cons_succ]
          exact List.Perm.trans (List.Perm.cons x (ih n h)) (List.Perm.swap b x _)

/-- A new `HandleBuyRequest(id)`: rejected, parked, or run to `Unlock`. -/
theorem step_buy_inv (c c' : Config) (id : Int) (hs : step c (Event.buy id) = some c') :
    (∃ n : Int, c.sys.UserTickets.Load id = some n ∧ 0 < n ∧
      c' = { c with sys := c.sys.Printf (alreadyHasMsg id) }) ∨
    ((c.sys.UserTickets.Load id).getD 0 ≤ 0 ∧ c.sys.TotalTickets = 0 ∧
      c' = { c with sys := waitLoopBody c.sys id, waiters := c.waiters ++ [id] }) ∨
    ((c.sys.UserTickets.Load id).getD 0 ≤ 0 ∧ c.sys.TotalTickets ≠ 0 ∧
      c' = { c with sys := buyTail c.sys id }) := by
  simp only [step, Option.some.injEq] at hs
  have hloop : (c.sys.UserTickets.Load id).getD 0 ≤ 0 →
      endBuySection c id (buyLoop c.sys id) = c' →
      ((c.sys.UserTickets.Load id).getD 0 ≤ 0 ∧ c.sys.TotalTickets = 0 ∧
        c' = { c with sys := waitLoopBody c.sys id, waiters := c.waiters ++ [id] }) ∨
      ((c.sys.UserTickets.Load id).getD 0 ≤ 0 ∧ c.sys.TotalTickets ≠ 0 ∧
        c' = { c with sys := buyTail c.sys id }) := by
    intro hle h
    by_cases hT : c.sys.TotalTickets = 0
    · left
      simp only [buyLoop, hT, if_true, endBuySection] at h
      exact ⟨hle, hT, h.symm⟩
    · right
      simp only [buyLoop, hT, if_false, endBuySection] at h
      exact ⟨hle, hT, h.symm⟩
  unfold HandleBuyRequest at hs
  cases hl : c.sys.UserTickets.Load id with
  | none =>
      simp only [hl] at hs
      right
      rw [hl] at hloop
      exact hloop (le_refl _) hs
  | some n =>
      simp only [hl] at hs
      by_cases hn : n > 0
      · left
        simp only [hn, if_true, endBuySection] at hs
        exact ⟨n, rfl, hn, hs.symm⟩
      · right
        simp only [hn, if_false] at hs
        rw [hl] at hloop
        exact hloop (by simpa using hn) hs

/-- A `HandleRefundRequest(id)` that returns: a refund with nobody to
signal, a refund that releases the waiter at position `w`, or a rejection. -/
theorem step_refund_inv (c c' : Config) (id : Int) (w : Nat)
    (hs : step c (Event.refund id w) = some c') :
    ∃ count : Int, c.sys.UserTickets.Load id = some count ∧
      ((0 < count ∧ c.waiters = [] ∧ c' = { c with sys := refundTail c.sys id count }) ∨
       (0 < count ∧ ∃ b : Int, c.waiters.get? w = some b ∧
          c' = { sys := refundTail c.sys id count, waiters := c.waiters.eraseIdx w,
                 woken := c.woken ++ [b] }) ∨
       (count ≤ 0 ∧ c' = { c with sys := c.sys.Printf (noRefundMsg id) })) := by
  simp only [step] at hs
  cases hl : c.sys.UserTickets.Load id with
  | none => simp [HandleRefundRequest, hl] at hs
  | some count =>
      refine ⟨count, rfl, ?_⟩
      by_cases hc : count > 0
      · simp only [HandleRefundRequest, hl, hc, if_true, signal] at hs
        cases hw : c.waiters with
        | nil =>
            simp only [hw, Option.some.injEq] at hs
            left
            refine ⟨hc, rfl, ?_⟩
            rw [← hs]
        | cons x rest =>
            simp only [hw] at hs
            right; left
            refine ⟨hc, ?_⟩
            cases hg : (x :: rest).get? w with
            | none =>
                rw [hg] at hs
                exact absurd hs (by simp)
            | some b =>
                rw [hg] at hs
                simp only [Option.some.injEq] at hs
                exact ⟨b, rfl, hs.symm⟩
      · simp only [HandleRefundRequest, hl, hc, if_false, Option.some.injEq] at hs
        right; right
        exact ⟨by simpa using hc, hs.symm⟩

/-- The signalled goroutine at position `r` runs again: parked again, or run
to `Unlock`. -/
theorem step_resume_inv (c c' : Config) (r : Nat) (hs : step c (Event.resume r) = some c') :
    ∃ id : Int, c.woken.get? r = some id ∧
      ((c.sys.TotalTickets = 0 ∧
          c' = { sys := waitLoopBody c.sys id, waiters := c.waiters ++ [id],
                 woken := c.woken.eraseIdx r }) ∨
       (c.sys.TotalTickets ≠ 0 ∧
          c' = { sys := buyTail c.sys id, waiters := c.waiters,
                 woken := c.woken.eraseIdx r })) := by
  simp only [step] at hs
  cases hg : c.woken.get? r with
  | none =>
      rw [hg] at hs
      exact absurd hs (by simp)
  | some id =>
      rw [hg] at hs
      simp only [Option.some.injEq] at hs
      refine ⟨id, rfl, ?_⟩
      by_cases hT : c.sys.TotalTickets = 0
      · left
        simp only [buyLoop, hT, if_true, endBuySection] at hs
        exact ⟨hT, hs.symm⟩
      · right
        simp only [buyLoop, hT, if_false, endBuySection] at hs
        exact ⟨hT, hs.symm⟩

theorem reachableSingle_reachable (supply : Int) (c : Config)
    (hc : ReachableSingle supply c) : Reachable supply c := by
  induction hc with
  | init h1 h2 => exact Reachable.init h1 h2
  | step c c' e _ _ hstep ih => exact Reachable.step c c' e ih hstep

/-! ## Waiting flag and holding -/

theorem FlagSound_waitLoopBody (t : TicketSystem) (id : Int) (h : FlagSound t) :
    FlagSound (waitLoopBody t id) := by
  obtain ⟨h0, hb, hf⟩ := h
  refine ⟨h0, Binary_waitLoopBody t id hb, ?_⟩
  intro u hu
  rw [waitLoopBody_UserTickets]
  rw [waitLoopBody_WaitingUsers] at hu
  by_cases hid : u = id
  · simp [hid]
  · simp only [hid, if_false] at hu ⊢
    exact hf u hu

theorem FlagSound_buyTail (t : TicketSystem) (id : Int) (h : FlagSound t)
    (hT : t.TotalTickets ≠ 0) : FlagSound (buyTail t id) := by
  obtain ⟨h0, hb, hf⟩ := h
  have hpos : 0 < t.TotalTickets := by omega
  refine ⟨buyTail_nonneg t id h0, Binary_buyTail t id hb, ?_⟩
  intro u hu
  rw [buyTail_UserTickets t id u hpos]
  rw [buyTail_WaitingUsers t id u hpos] at hu
  by_cases hid : u = id
  · simp [hid] at hu
  · simp only [hid, if_false] at hu ⊢
    exact hf u hu

theorem FlagSound_buyLoop (t : TicketSystem) (id : Int) (h : FlagSound t) :
    FlagSound (buyLoop t id).2 := by
  unfold buyLoop
  split
  · exact FlagSound_waitLoopBody t id h
  · rename_i hT
    exact FlagSound_buyTail t id h hT

theorem FlagSound_HandleBuyRequest (t : TicketSystem) (id : Int) (h : FlagSound t) :
    FlagSound (HandleBuyRequest t id).2 := by
  unfold HandleBuyRequest
  split
  · split
    · exact h
    · exact FlagSound_buyLoop t id h
  · exact FlagSound_buyLoop t id h

theorem FlagSound_HandleRefundRequest (supply : Int) (hmax : supply ≤ maxInt64)
    (t t' : TicketSystem) (id : Int) (b : Bool) (hB : Bounded supply t)
    (h : FlagSound t) (hr : HandleRefundRequest t id = Except.ok (b, t')) : FlagSound t' := by
  refine ⟨(Bounded_HandleRefundRequest supply hmax t t' id b hB hr).2.1,
    Binary_HandleRefundRequest t t' id b h.2.1 hr, ?_⟩
  obtain ⟨_, hb, hf⟩ := h
  unfold HandleRefundRequest at hr
  split at hr
  · exact absurd hr (by simp)
  · rename_i count hl
    split at hr
    · rename_i hc
      simp only [Except.ok.injEq, Prod.mk.injEq] at hr
      rw [← hr.2]
      intro u hu
      rw [refundTail_UserTickets]
      rw [refundTail_WaitingUsers] at hu
      by_cases hid : u = id
      · have h1 : count - 1 = 0 := by
          rcases Binary_Load t hb id count hl with h0 | h0 <;> omega
        simp [hid, h1]
      · simp only [hid, if_false]
        exact hf u hu
    · simp only [Except.ok.injEq, Prod.mk.injEq] at hr
      rw [← hr.2]
      exact hf

theorem reachable_FlagSound (supply : Int) (hs : 0 ≤ supply) (c : Config)
    (hc : Reachable supply c) : FlagSound c.sys := by
  have hmax := (reachable_supply_range supply c hc).2
  have h : Bounded supply c.sys ∧ FlagSound c.sys := by
    induction hc with
    | init h1 h2 =>
        refine ⟨(reachable_Bounded supply hs _ (Reachable.init h1 h2)).1, hs, ?_, ?_⟩
        · intro e he; cases he
        · intro u hu
          simp [initConfig] at hu
    | step c c' e _ hstep ih =>
        exact sys_invariant_step (fun t => Bounded supply t ∧ FlagSound t)
          (fun t id h => ⟨Bounded_HandleBuyRequest supply t id h.1,
            FlagSound_HandleBuyRequest t id h.2⟩)
          (fun t id h => ⟨Bounded_buyLoop supply t id h.1, FlagSound_buyLoop t id h.2⟩)
          (fun t t' id b h hr => ⟨Bounded_HandleRefundRequest supply hmax t t' id b h.1 hr,
            FlagSound_HandleRefundRequest supply hmax t t' id b h.1 h.2 hr⟩)
          c c' e ih hstep
  exact h.2

theorem NoTicketEver_Load (t : TicketSystem) (h : NoTicketEver t) (id : Int) :
    t.UserTickets.Load id = none := by
  unfold SyncMap.Load
  rw [h.2]
  rfl

theorem NoTicketEver_buyLoop (t : TicketSystem) (id : Int) (h : NoTicketEver t) :
    NoTicketEver (buyLoop t id).2 := by
  have hne : t.TotalTickets ≠ 0 := by have := h.1; omega
  have hnp : ¬ 0 < t.TotalTickets := by have := h.1; omega
  have he : buyLoop t id = (BuyStatus.done, buyTail t id) := by
    simp [buyLoop, hne]
  obtain ⟨h1, h2⟩ := buyTail_of_nonpos t id hnp
  rw [he]
  exact ⟨by rw [h1]; exact h.1, by rw [h2]; exact h.2⟩

theorem NoTicketEver_HandleBuyRequest (t : TicketSystem) (id : Int) (h : NoTicketEver t) :
    NoTicketEver (HandleBuyRequest t id).2 := by
  have he : HandleBuyRequest t id = buyLoop t id := by
    simp [HandleBuyRequest, NoTicketEver_Load t h id]
  rw [he]
  exact NoTicketEver_buyLoop t id h

theorem NoTicketEver_HandleRefundRequest (t t' : TicketSystem) (id : Int) (b : Bool)
    (h : NoTicketEver t) (hr : HandleRefundRequest t id = Except.ok (b, t')) :
    NoTicketEver t' := by
  rw [HandleRefundRequest_absent t id (NoTicketEver_Load t h id)] at hr
  exact absurd hr (by simp)

theorem reachable_NoTicketEver (supply : Int) (hs : supply < 0) (c : Config)
    (hc : Reachable supply c) : NoTicketEver c.sys := by
  induction hc with
  | init _ _ => exact ⟨hs, rfl⟩
  | step c c' e _ hstep ih =>
      exact sys_invariant_step NoTicketEver NoTicketEver_HandleBuyRequest NoTicketEver_buyLoop
        NoTicketEver_HandleRefundRequest c c' e ih hstep

/-- In every reachable state a user flagged as waiting holds nothing. -/
theorem reachable_flag_holds_nothing (supply : Int) (c : Config) (hc : Reachable supply c)
    (u : Int) (hw : c.sys.WaitingUsers.Load u = some true) : QueryTickets c.sys u = 0 := by
  by_cases hs : 0 ≤ supply
  · rw [QueryTickets_eq, (reachable_FlagSound supply hs c hc).2.2 u hw]
    rfl
  · have hn := reachable_NoTicketEver supply (by omega) c hc
    rw [QueryTickets_eq, NoTicketEver_Load c.sys hn u]
    rfl

/-- Claim C18: in every state reached by sections of `HandleBuyRequest` and
`HandleRefundRequest`, no user is flagged waiting while holding more than
`0`; so no user is in both the result of `GetUsersWithTickets` and that of
`GetUsersWithoutTickets`, and every user with a `UserTickets` entry is in
exactly one of the two. -/
theorem waiting_excludes_holding (supply : Int) (c : Config) (hc : Reachable supply c) :
    (∀ u : Int, ¬ (c.sys.WaitingUsers.Load u = some true ∧ 0 < QueryTickets c.sys u)) ∧
    (∀ u : Int, ¬ (u ∈ GetUsersWithTickets c.sys ∧ u ∈ GetUsersWithoutTickets c.sys)) ∧
    (∀ u n : Int, c.sys.UserTickets.Load u = some n →
      (u ∈ GetUsersWithTickets c.sys ∧ u ∉ GetUsersWithoutTickets c.sys) ∨
      (u ∉ GetUsersWithTickets c.sys ∧ u ∈ GetUsersWithoutTickets c.sys)) := by
  have hb := reachable_Binary supply c hc
  have hflag : ∀ u : Int, ¬ (c.sys.WaitingUsers.Load u = some true ∧ 0 < QueryTickets c.sys u) := by
    rintro u ⟨hw, hq⟩
    rw [reachable_flag_holds_nothing supply c hc u hw] at hq
    exact absurd hq (by decide)
  have hdisj : ∀ u : Int,
      ¬ (u ∈ GetUsersWithTickets c.sys ∧ u ∈ GetUsersWithoutTickets c.sys) := by
    rintro u ⟨hwith, hwithout⟩
    have hq := (mem_GetUsersWithTickets_iff c.sys u).mp hwith
    rcases (mem_GetUsersWithoutTickets c.sys u).mp hwithout with hw | h0
    · exact hflag u ⟨hw, hq⟩
    · rw [QueryTickets_eq, h0] at hq
      exact absurd hq (by decide)
  refine ⟨hflag, hdisj, ?_⟩
  intro u n hl
  rcases Binary_Load c.sys hb u n hl with h0 | h1
  · right
    have hin : u ∈ GetUsersWithoutTickets c.sys :=
      (mem_GetUsersWithoutTickets c.sys u).mpr (Or.inr (by rw [hl, h0]))
    exact ⟨fun hw => hdisj u ⟨hw, hin⟩, hin⟩
  · left
    have hin : u ∈ GetUsersWithTickets c.sys :=
      (mem_GetUsersWithTickets c.sys u).mpr ⟨n, hl, by omega⟩
    exact ⟨hin, fun hw => hdisj u ⟨hin, hw⟩⟩

theorem waiting_excludes_holding_witness :
    2 ∈ GetUsersWithTickets (runFrom (initConfig 2) lostTicketSchedule).sys ∧
    ¬ (2 ∈ GetUsersWithTickets (runFrom (initConfig 2) lostTicketSchedule).sys ∧
       2 ∈ GetUsersWithoutTickets (runFrom (initConfig 2) lostTicketSchedule).sys) :=
  ⟨by decide,
   (waiting_excludes_holding 2 (runFrom (initConfig 2) lostTicketSchedule)
    (reachable_run 2 lostTicketSchedule (initConfig 2) _ (Reachable.init (by decide) (by decide))
      (run_eq_runFrom (initConfig 2) lostTicketSchedule (by decide)))).2.1 2⟩

/-! ## The branch after the wait loop -/

theorem buyLoop_outcome (t : TicketSystem) (id : Int) (h0 : 0 ≤ t.TotalTickets) :
    ((buyLoop t id).1 = BuyStatus.blocked ∧ t.TotalTickets = 0) ∨
    ((buyLoop t id).1 = BuyStatus.done ∧
      (buyLoop t id).2.TotalTickets = t.TotalTickets - 1 ∧
      (buyLoop t id).2.UserTickets.Load id = some 1 ∧
      (buyLoop t id).2.WaitingUsers.Load id = some false) := by
  by_cases hT : t.TotalTickets = 0
  · left
    simp [buyLoop, hT]
  · right
    have hpos : 0 < t.TotalTickets := by omega
    have he : buyLoop t id = (BuyStatus.done, buyTail t id) := by
      simp [buyLoop, hT]
    rw [he]
    refine ⟨rfl, buyTail_TotalTickets t id hpos, ?_, ?_⟩
    · rw [buyTail_UserTickets t id id hpos]; simp
    · rw [buyTail_WaitingUsers t id id hpos]; simp

/-- Claim C19: started with a supply that is at least `0`, in every
reachable state a request that leaves the wait loop finds `TotalTickets > 0`,
so the `still waiting` branch is never taken: a new `HandleBuyRequest(id)` is
rejected as already holding, or parked in `Wait`, or ends having taken
exactly one ticket (holding `1`, waiting flag `false`), and a request
returning from `Wait` is parked again or ends having taken exactly one. -/
theorem still_waiting_unreachable (supply : Int) (hs : 0 ≤ supply) (c : Config)
    (hc : Reachable supply c) (id : Int) :
    (c.sys.TotalTickets ≠ 0 → c.sys.TotalTickets > 0) ∧
    (((HandleBuyRequest c.sys id).1 = BuyStatus.rejected ∧
        (∃ n : Int, c.sys.UserTickets.Load id = some n ∧ 0 < n) ∧
        (HandleBuyRequest c.sys id).2.TotalTickets = c.sys.TotalTickets) ∨
      ((HandleBuyRequest c.sys id).1 = BuyStatus.blocked ∧ c.sys.TotalTickets = 0) ∨
      ((HandleBuyRequest c.sys id).1 = BuyStatus.done ∧
        (HandleBuyRequest c.sys id).2.TotalTickets = c.sys.TotalTickets - 1 ∧
        (HandleBuyRequest c.sys id).2.UserTickets.Load id = some 1 ∧
        (HandleBuyRequest c.sys id).2.WaitingUsers.Load id = some false)) ∧
    (((buyLoop c.sys id).1 = BuyStatus.blocked ∧ c.sys.TotalTickets = 0) ∨
      ((buyLoop c.sys id).1 = BuyStatus.done ∧
        (buyLoop c.sys id).2.TotalTickets = c.sys.TotalTickets - 1 ∧
        (buyLoop c.sys id).2.UserTickets.Load id = some 1 ∧
        (buyLoop c.sys id).2.WaitingUsers.Load id = some false)) := by
  have h0 : 0 ≤ c.sys.TotalTickets := (reachable_FlagSound supply hs c hc).1
  refine ⟨fun hne => by omega, ?_, buyLoop_outcome c.sys id h0⟩
  cases hl : c.sys.UserTickets.Load id with
  | none =>
      have he : HandleBuyRequest c.sys id = buyLoop c.sys id := by
        simp [HandleBuyRequest, hl]
      rw [he]
      exact Or.inr (buyLoop_outcome c.sys id h0)
  | some n =>
      by_cases hn : n > 0
      · left
        have he : HandleBuyRequest c.sys id =
            (BuyStatus.rejected, c.sys.Printf (alreadyHasMsg id)) := by
          simp [HandleBuyRequest, hl, hn]
        rw [he]
        exact ⟨rfl, ⟨n, rfl, hn⟩, rfl⟩
      · have he : HandleBuyRequest c.sys id = buyLoop c.sys id := by
          simp [HandleBuyRequest, hl, hn]
        rw [he]
        exact Or.inr (buyLoop_outcome c.sys id h0)

theorem still_waiting_unreachable_witness :
    (0 : Int) ≤ 1 ∧
    (buyLoop (runFrom (initConfig 1) [Event.buy 0, Event.buy 1, Event.refund 0 0]).sys 1).1 ≠
      BuyStatus.blocked ∧
    ((runFrom (initConfig 1) [Event.buy 0, Event.buy 1, Event.refund 0 0]).sys.TotalTickets ≠ 0 →
      (runFrom (initConfig 1) [Event.buy 0, Event.buy 1, Event.refund 0 0]).sys.TotalTickets > 0) :=
  ⟨by decide, by decide,
   (still_waiting_unreachable 1 (by decide)
    (runFrom (initConfig 1) [Event.buy 0, Event.buy 1, Event.refund 0 0])
    (reachable_run 1 [Event.buy 0, Event.buy 1, Event.refund 0 0] (initConfig 1) _
      (Reachable.init (by decide) (by decide))
      (run_eq_runFrom (initConfig 1) [Event.buy 0, Event.buy 1, Event.refund 0 0] (by decide)))
    1).1⟩

/-! ## Conservation when no user has two requests in flight -/

theorem getD_Load_of_Binary (t : TicketSystem) (hb : Binary t) (id : Int)
    (hle : (t.UserTickets.Load id).getD 0 ≤ 0) : (t.UserTickets.Load id).getD 0 = 0 := by
  cases hl : t.UserTickets.Load id with
  | none => rfl
  | some n =>
      rw [hl] at hle
      simp only [Option.getD_some] at hle ⊢
      rcases Binary_Load t hb id n hl with h | h <;> omega

theorem totalHeld_waitLoopBody (t : TicketSystem) (id : Int) :
    totalHeld (waitLoopBody t id) = totalHeld t - (t.UserTickets.Load id).getD 0 := by
  have h : totalHeld (waitLoopBody t id) = totalHeld t - (t.UserTickets.Load id).getD 0 + 0 :=
    totalHeld_Store t id 0
  omega

theorem totalHeld_buyTail (t : TicketSystem) (id : Int) (hT : 0 < t.TotalTickets) :
    totalHeld (buyTail t id) = totalHeld t - (t.UserTickets.Load id).getD 0 + 1 := by
  rw [buyTail_of_pos t id hT]
  exact totalHeld_Store t id 1

theorem totalHeld_refundTail (t : TicketSystem) (id count : Int)
    (hl : t.UserTickets.Load id = some count) :
    totalHeld (refundTail t id count) = totalHeld t - 1 := by
  have h : totalHeld (refundTail t id count) =
      totalHeld t - (t.UserTickets.Load id).getD 0 + (count - 1) :=
    totalHeld_Store t id (count - 1)
  rw [hl] at h
  simp only [Option.getD_some] at h
  omega

/-- The sum `TotalTickets + totalHeld` after `buyTail`, for a user whose
stored holding is `0` or absent. -/
theorem conserved_buyTail (t : TicketSystem) (id : Int)
    (h0 : (t.UserTickets.Load id).getD 0 = 0) :
    (buyTail t id).TotalTickets + totalHeld (buyTail t id) = t.TotalTickets + totalHeld t := by
  by_cases hT : 0 < t.TotalTickets
  · rw [buyTail_TotalTickets t id hT, totalHeld_buyTail t id hT, h0]
    omega
  · obtain ⟨h1, h2⟩ := buyTail_of_nonpos t id hT
    unfold totalHeld
    rw [h1, h2]

/-- After `buyTail` for user `id`, the stored holding of another user is what
it was. -/
theorem buyTail_Load_ne (t : TicketSystem) (id u : Int) (hne : u ≠ id) :
    (buyTail t id).UserTickets.Load u = t.UserTickets.Load u := by
  by_cases hT : 0 < t.TotalTickets
  · rw [buyTail_UserTickets t id u hT]
    simp [hne]
  · rw [(buyTail_of_nonpos t id hT).2]

theorem SingleInv_step (supply : Int) (c c' : Config) (e : Event) (hb : Binary c.sys)
    (hwrap : (∃ id count : Int, c.sys.UserTickets.Load id = some count ∧ 0 < count) →
      wrapInt64 (c.sys.TotalTickets + 1) = c.sys.TotalTickets + 1)
    (h : SingleInv supply c)
    (hreq : ∀ id : Int, e.requester = some id → id ∉ c.suspended)
    (hs : step c e = some c') : SingleInv supply c' := by
  obtain ⟨hnd, hzero, hsum⟩ := h
  cases e with
  | buy id =>
      have hid : id ∉ c.suspended := hreq id rfl
      rcases step_buy_inv c c' id hs with ⟨n, _, _, rfl⟩ | ⟨hle, hT, rfl⟩ | ⟨hle, _, rfl⟩
      · exact ⟨hnd, hzero, hsum⟩
      · have h0 := getD_Load_of_Binary c.sys hb id hle
        refine ⟨?_, ?_, ?_⟩
        · have hp : (c.waiters ++ [id] ++ c.woken).Perm (id :: (c.waiters ++ c.woken)) := by
            simp
          exact hp.nodup_iff.mpr (List.nodup_cons.mpr ⟨hid, hnd⟩)
        · intro u hu
          show (waitLoopBody c.sys id).UserTickets.Load u = some 0
          rw [waitLoopBody_UserTickets]
          by_cases hui : u = id
          · simp [hui]
          · simp only [hui, if_false]
            apply hzero u
            simp only [Config.suspended, List.mem_append, List.mem_singleton] at hu ⊢
            tauto
        · show (waitLoopBody c.sys id).TotalTickets + totalHeld (waitLoopBody c.sys id) = supply
          rw [totalHeld_waitLoopBody, h0, waitLoopBody_TotalTickets]
          omega
      · have h0 := getD_Load_of_Binary c.sys hb id hle
        refine ⟨hnd, ?_, ?_⟩
        · intro u hu
          have hui : u ≠ id := fun he => hid (he ▸ hu)
          show (buyTail c.sys id).UserTickets.Load u = some 0
          rw [buyTail_Load_ne c.sys id u hui]
          exact hzero u hu
        · show (buyTail c.sys id).TotalTickets + totalHeld (buyTail c.sys id) = supply
          rw [conserved_buyTail c.sys id h0]
          exact hsum
  | refund id w =>
      have hid : id ∉ c.suspended := hreq id rfl
      obtain ⟨count, hl, hcase⟩ := step_refund_inv c c' id w hs
      have hkeep : ∀ u ∈ c.suspended,
          (refundTail c.sys id count).UserTickets.Load u = some 0 := by
        intro u hu
        have hui : u ≠ id := fun he => hid (he ▸ hu)
        rw [refundTail_UserTickets]
        simp only [hui, if_false]
        exact hzero u hu
      have hsum' : 0 < count → (refundTail c.sys id count).TotalTickets +
          totalHeld (refundTail c.sys id count) = supply := by
        intro hc
        rw [refundTail_TotalTickets, totalHeld_refundTail c.sys id count hl,
          hwrap ⟨id, count, hl, hc⟩]
        omega
      rcases hcase with ⟨hc, _, rfl⟩ | ⟨hc, b, hg, rfl⟩ | ⟨_, rfl⟩
      · exact ⟨hnd, hkeep, hsum' hc⟩
      · have hp : (c.waiters.eraseIdx w ++ (c.woken ++ [b])).Perm (c.waiters ++ c.woken) := by
          have h1 := perm_eraseIdx c.waiters w b hg
          have h2 : (c.waiters.eraseIdx w ++ (c.woken ++ [b])).Perm
              (b :: c.waiters.eraseIdx w ++ c.woken) := by
            rw [← List.append_assoc]
            exact List.perm_append_singleton b _ |>.trans (List.Perm.refl _)
          exact h2.trans (List.Perm.append_right c.woken h1.symm)
        refine ⟨hp.nodup_iff.mpr hnd, ?_, hsum' hc⟩
        intro u hu
        exact hkeep u (hp.mem_iff.mp hu)
      · exact ⟨hnd, hzero, hsum⟩
  | resume r =>
      obtain ⟨id, hg, hcase⟩ := step_resume_inv c c' r hs
      have hp : (c.waiters ++ c.woken).Perm (id :: (c.waiters ++ c.woken.eraseIdx r)) := by
        have h1 := perm_eraseIdx c.woken r id hg
        exact (List.Perm.append_left c.waiters h1).trans List.perm_middle
      have hnd' : (id :: (c.waiters ++ c.woken.eraseIdx r)).Nodup := hp.nodup_iff.mp hnd
      have hidz : c.sys.UserTickets.Load id = some 0 :=
        hzero id (hp.mem_iff.mpr (List.mem_cons_self _ _))
      have h0 : (c.sys.UserTickets.Load id).getD 0 = 0 := by rw [hidz]; rfl
      rcases hcase with ⟨hT, rfl⟩ | ⟨_, rfl⟩
      · refine ⟨?_, ?_, ?_⟩
        · have hp2 : (c.waiters ++ [id] ++ c.woken.eraseIdx r).Perm
              (id :: (c.waiters ++ c.woken.eraseIdx r)) := by
            simp
          exact hp2.nodup_iff.mpr hnd'
        · intro u hu
          show (waitLoopBody c.sys id).UserTickets.Load u = some 0
          rw [waitLoopBody_UserTickets]
          by_cases hui : u = id
          · simp [hui]
          · simp only [hui, if_false]
            apply hzero u
            apply hp.mem_iff.mpr
            simp only [Config.suspended, List.mem_append, List.mem_singleton,
              List.mem_cons] at hu ⊢
            tauto
        · show (waitLoopBody c.sys id).TotalTickets + totalHeld (waitLoopBody c.sys id) = supply
          rw [totalHeld_waitLoopBody, h0, waitLoopBody_TotalTickets]
          omega
      · refine ⟨(List.nodup_cons.mp hnd').2, ?_, ?_⟩
        · intro u hu
          have hui : u ≠ id := fun he => (List.nodup_cons.mp hnd').1 (he ▸ hu)
          show (buyTail c.sys id).UserTickets.Load u = some 0
          rw [buyTail_Load_ne c.sys id u hui]
          exact hzero u (hp.mem_iff.mpr (List.mem_cons_of_mem _ hu))
        · show (buyTail c.sys id).TotalTickets + totalHeld (buyTail c.sys id) = supply
          rw [conserved_buyTail c.sys id h0]
          exact hsum

theorem reachable_no_wrap (supply : Int) (c : Config) (hc : Reachable supply c)
    (h : ∃ id count : Int, c.sys.UserTickets.Load id = some count ∧ 0 < count) :
    wrapInt64 (c.sys.TotalTickets + 1) = c.sys.TotalTickets + 1 := by
  obtain ⟨id, count, hl, hpos⟩ := h
  by_cases hs : 0 ≤ supply
  · have hB := reachable_Bounded supply hs c hc
    have hmax := (reachable_supply_range supply c hc).2
    have hlt := Bounded_lt_of_holder supply c.sys hB.1 id count hl hpos
    exact wrapInt64_succ_of_nonneg _ hB.2.1 (by omega)
  · have hn := reachable_NoTicketEver supply (by omega) c hc
    rw [NoTicketEver_Load c.sys hn id] at hl
    exact absurd hl (by simp)

theorem reachableSingle_SingleInv (supply : Int) (c : Config)
    (hc : ReachableSingle supply c) : SingleInv supply c := by
  induction hc with
  | init _ _ =>
      refine ⟨List.nodup_nil, ?_, ?_⟩
      · intro u hu; cases hu
      · show supply + 0 = supply
        omega
  | step c c' e hprev hreq hstep ih =>
      exact SingleInv_step supply c c' e
        (reachable_Binary supply c (reachableSingle_reachable supply c hprev))
        (reachable_no_wrap supply c (reachableSingle_reachable supply c hprev)) ih hreq hstep

theorem reachableSingle_run (supply : Int) (es : List Event) (c c' : Config)
    (hc : ReachableSingle supply c) (hd : disciplined c es = true)
    (hr : run c es = some c') : ReachableSingle supply c' := by
  induction es generalizing c with
  | nil =>
      simp only [run, Option.some.injEq] at hr
      rw [← hr]; exact hc
  | cons e es ih =>
      simp only [run] at hr
      simp only [disciplined, Bool.and_eq_true] at hd
      cases hstep : step c e with
      | none => rw [hstep] at hr; exact absurd hr (by simp)
      | some c1 =>
          rw [hstep] at hr
          have hd2 : disciplined c1 es = true := by
            have := hd.2
            rw [hstep] at this
            exact this
          refine ih c1 (ReachableSingle.step c c1 e hc ?_ hstep) hd2 hr
          intro id hid
          have := hd.1
          rw [hid] at this
          simpa using this

/-- Claim C17: when at every moment each user has at most one request in
flight, `TotalTickets` plus the sum of the stored holdings equals the
initial supply in every reachable state, whether or not buys of other users
are parked in the wait loop or have resumed. -/
theorem conservation_single_request (supply : Int) (c : Config)
    (hc : ReachableSingle supply c) : c.sys.TotalTickets + totalHeld c.sys = supply :=
  (reachableSingle_SingleInv supply c hc).2.2

theorem conservation_single_request_witness :
    (runFrom (initConfig 1) handoverPrefix).woken = [1] ∧
    (runFrom (initConfig 1) handoverPrefix).sys.TotalTickets +
      totalHeld (runFrom (initConfig 1) handoverPrefix).sys = 1 :=
  ⟨by decide,
   conservation_single_request 1 (runFrom (initConfig 1) handoverPrefix)
    (reachableSingle_run 1 handoverPrefix (initConfig 1) _ (ReachableSingle.init (by decide) (by decide)) (by decide)
      (run_eq_runFrom (initConfig 1) handoverPrefix (by decide)))⟩

/-! ## The waiting flag -/

theorem buyTail_WaitingUsers_ne (t : TicketSystem) (id u : Int) (hne : u ≠ id) :
    (buyTail t id).WaitingUsers.Load u = t.WaitingUsers.Load u := by
  by_cases hT : 0 < t.TotalTickets
  · rw [buyTail_WaitingUsers t id u hT]
    simp [hne]
  · have hT' : ¬ t.TotalTickets > 0 := hT
    simp only [buyTail, hT', if_false]
    exact SyncMap.Load_Store_ne _ _ _ _ hne

theorem FlagImplies_step (c c' : Config) (e : Event) (h : FlagImplies c)
    (h0' : 0 ≤ c'.sys.TotalTickets) (hs : step c e = some c') : FlagImplies c' := by
  obtain ⟨h0, hf⟩ := h
  refine ⟨h0', ?_⟩
  cases e with
  | buy id =>
      rcases step_buy_inv c c' id hs with ⟨n, _, _, rfl⟩ | ⟨_, _, rfl⟩ | ⟨_, hT, rfl⟩
      · exact hf
      · intro u hu
        change (waitLoopBody c.sys id).WaitingUsers.Load u = some true at hu
        rw [waitLoopBody_WaitingUsers] at hu
        simp only [Config.suspended, List.mem_append, List.mem_singleton]
        by_cases hui : u = id
        · exact Or.inl (Or.inr hui)
        · simp only [hui, if_false] at hu
          have := hf u hu
          simp only [Config.suspended, List.mem_append] at this
          tauto
      · intro u hu
        change (buyTail c.sys id).WaitingUsers.Load u = some true at hu
        have hpos : 0 < c.sys.TotalTickets := by omega
        rw [buyTail_WaitingUsers c.sys id u hpos] at hu
        by_cases hui : u = id
        · simp [hui] at hu
        · simp only [hui, if_false] at hu
          exact hf u hu
  | refund id w =>
      obtain ⟨count, _, hcase⟩ := step_refund_inv c c' id w hs
      rcases hcase with ⟨_, _, rfl⟩ | ⟨_, b, hg, rfl⟩ | ⟨_, rfl⟩
      · exact hf
      · intro u hu
        have hmem := hf u hu
        have h1 := perm_eraseIdx c.waiters w b hg
        simp only [Config.suspended, List.mem_append, List.mem_singleton] at hmem ⊢
        rcases hmem with hm | hm
        · rcases List.mem_cons.mp (h1.mem_iff.mp hm) with hm1 | hm1
          · exact Or.inr (Or.inr hm1)
          · exact Or.inl hm1
        · exact Or.inr (Or.inl hm)
      · exact hf
  | resume r =>
      obtain ⟨id, hg, hcase⟩ := step_resume_inv c c' r hs
      have h1 := perm_eraseIdx c.woken r id hg
      rcases hcase with ⟨_, rfl⟩ | ⟨hT, rfl⟩
      · intro u hu
        change (waitLoopBody c.sys id).WaitingUsers.Load u = some true at hu
        rw [waitLoopBody_WaitingUsers] at hu
        simp only [Config.suspended, List.mem_append, List.mem_singleton]
        by_cases hui : u = id
        · exact Or.inl (Or.inr hui)
        · simp only [hui, if_false] at hu
          have hmem := hf u hu
          simp only [Config.suspended, List.mem_append] at hmem
          rcases hmem with hm | hm
          · exact Or.inl (Or.inl hm)
          · rcases List.mem_cons.mp (h1.mem_iff.mp hm) with hm1 | hm1
            · exact absurd hm1 hui
            · exact Or.inr hm1
      · intro u hu
        change (buyTail c.sys id).WaitingUsers.Load u = some true at hu
        have hpos : 0 < c.sys.TotalTickets := by omega
        rw [buyTail_WaitingUsers c.sys id u hpos] at hu
        by_cases hui : u = id
        · simp [hui] at hu
        · simp only [hui, if_false] at hu
          have hmem := hf u hu
          simp only [Config.suspended, List.mem_append] at hmem ⊢
          rcases hmem with hm | hm
          · exact Or.inl hm
          · rcases List.mem_cons.mp (h1.mem_iff.mp hm) with hm1 | hm1
            · exact absurd hm1 hui
            · exact Or.inr hm1

theorem reachable_FlagImplies (supply : Int) (hs : 0 ≤ supply) (c : Config)
    (hc : Reachable supply c) : FlagImplies c := by
  induction hc with
  | init _ _ =>
      refine ⟨hs, ?_⟩
      intro u hu
      simp [initConfig] at hu
  | step c c' e hprev hstep ih =>
      exact FlagImplies_step c c' e ih
        (reachable_Bounded supply hs c' (Reachable.step c c' e hprev hstep)).2.1 hstep

theorem FlagComplete_step (c c' : Config) (e : Event) (hnd : c.suspended.Nodup)
    (h : FlagComplete c)
    (hreq : ∀ id : Int, e.requester = some id → id ∉ c.suspended)
    (hs : step c e = some c') : FlagComplete c' := by
  cases e with
  | buy id =>
      have hid : id ∉ c.suspended := hreq id rfl
      rcases step_buy_inv c c' id hs with ⟨n, _, _, rfl⟩ | ⟨_, _, rfl⟩ | ⟨_, _, rfl⟩
      · exact h
      · intro u hu
        show (waitLoopBody c.sys id).WaitingUsers.Load u = some true
        rw [waitLoopBody_WaitingUsers]
        by_cases hui : u = id
        · simp [hui]
        · simp only [hui, if_false]
          apply h u
          simp only [Config.suspended, List.mem_append, List.mem_singleton] at hu ⊢
          tauto
      · intro u hu
        have hui : u ≠ id := fun he => hid (he ▸ hu)
        show (buyTail c.sys id).WaitingUsers.Load u = some true
        rw [buyTail_WaitingUsers_ne c.sys id u hui]
        exact h u hu
  | refund id w =>
      obtain ⟨count, _, hcase⟩ := step_refund_inv c c' id w hs
      rcases hcase with ⟨_, _, rfl⟩ | ⟨_, b, hg, rfl⟩ | ⟨_, rfl⟩
      · exact h
      · intro u hu
        apply h u
        have h1 := perm_eraseIdx c.waiters w b hg
        simp only [Config.suspended, List.mem_append, List.mem_singleton] at hu ⊢
        rcases hu with hm | hm | hm
        · exact Or.inl (h1.mem_iff.mpr (List.mem_cons_of_mem _ hm))
        · exact Or.inr hm
        · exact Or.inl (h1.mem_iff.mpr (hm ▸ List.mem_cons_self _ _))
      · exact h
  | resume r =>
      obtain ⟨id, hg, hcase⟩ := step_resume_inv c c' r hs
      have h1 := perm_eraseIdx c.woken r id hg
      have hp : (c.waiters ++ c.woken).Perm (id :: (c.waiters ++ c.woken.eraseIdx r)) :=
        (List.Perm.append_left c.waiters h1).trans List.perm_middle
      have hnd' : (id :: (c.waiters ++ c.woken.eraseIdx r)).Nodup := hp.nodup_iff.mp hnd
      rcases hcase with ⟨_, rfl⟩ | ⟨_, rfl⟩
      · intro u hu
        show (waitLoopBody c.sys id).WaitingUsers.Load u = some true
        rw [waitLoopBody_WaitingUsers]
        by_cases hui : u = id
        · simp [hui]
        · simp only [hui, if_false]
          apply h u
          apply hp.mem_iff.mpr
          simp only [Config.suspended, List.mem_append, List.mem_singleton,
            List.mem_cons] at hu ⊢
          tauto
      · intro u hu
        have hui : u ≠ id := fun he => (List.nodup_cons.mp hnd').1 (he ▸ hu)
        show (buyTail c.sys id).WaitingUsers.Load u = some true
        rw [buyTail_WaitingUsers_ne c.sys id u hui]
        exact h u (hp.mem_iff.mpr (List.mem_cons_of_mem _ hu))

theorem reachableSingle_FlagComplete (supply : Int) (c : Config)
    (hc : ReachableSingle supply c) : FlagComplete c := by
  induction hc with
  | init _ _ => intro u hu; cases hu
  | step c c' e hprev hreq hstep ih =>
      exact FlagComplete_step c c' e (reachableSingle_SingleInv supply c hprev).1 ih hreq hstep

/-- Claim C14 as the code has it: started with a supply that is at least
`0`, in every reachable state a user whose `WaitingUsers` flag is `true` has
a `HandleBuyRequest` suspended in the wait loop; and when no user ever has
two requests in flight, the flag of `u` is `true` exactly when `u` has a
request suspended in the wait loop. -/
theorem waiting_flag_accuracy (supply : Int) (hs : 0 ≤ supply) (c : Config) :
    (Reachable supply c →
      ∀ u : Int, c.sys.WaitingUsers.Load u = some true → u ∈ c.suspended) ∧
    (ReachableSingle supply c →
      ∀ u : Int, c.sys.WaitingUsers.Load u = some true ↔ u ∈ c.suspended) := by
  refine ⟨fun hc => (reachable_FlagImplies supply hs c hc).2, ?_⟩
  intro hc u
  exact ⟨(reachable_FlagImplies supply hs c (reachableSingle_reachable supply c hc)).2 u,
    reachableSingle_FlagComplete supply c hc u⟩

theorem waiting_flag_accuracy_witness :
    (0 : Int) ≤ 1 ∧
    ((runFrom (initConfig 1) handoverPrefix).sys.WaitingUsers.Load 1 = some true ↔
      1 ∈ (runFrom (initConfig 1) handoverPrefix).suspended) :=
  ⟨by decide,
   (waiting_flag_accuracy 1 (by decide) (runFrom (initConfig 1) handoverPrefix)).2
    (reachableSingle_run 1 handoverPrefix (initConfig 1) _ (ReachableSingle.init (by decide) (by decide)) (by decide)
      (run_eq_runFrom (initConfig 1) handoverPrefix (by decide))) 1⟩

/-- Claim C14 fails as stated: with one ticket, after `staleWaiterSchedule`
user `1` still has a request parked in `Wait`, yet `WaitingUsers[1]` is
`false` (the other request of user `1` has taken the ticket). -/
theorem waiting_flag_stale :
    Reachable 1 (runFrom (initConfig 1) staleWaiterSchedule) ∧
    (runFrom (initConfig 1) staleWaiterSchedule).waiters = [1] ∧
    (runFrom (initConfig 1) staleWaiterSchedule).sys.WaitingUsers.Load 1 = some false ∧
    ¬ ((runFrom (initConfig 1) staleWaiterSchedule).sys.WaitingUsers.Load 1 = some true ↔
        1 ∈ (runFrom (initConfig 1) staleWaiterSchedule).suspended) := by
  refine ⟨reachable_run 1 staleWaiterSchedule (initConfig 1) _ (Reachable.init (by decide) (by decide))
    (run_eq_runFrom (initConfig 1) staleWaiterSchedule (by decide)), by decide, by decide, ?_⟩
  decide

/-! ## Progress after a refund -/

theorem get?_append_length (l : List Int) (b : Int) : (l ++ [b]).get? l.length = some b := by
  induction l with
  | nil => rfl
  | cons x rest ih => simp

theorem eraseIdx_append_length (l : List Int) (b : Int) :
    (l ++ [b]).eraseIdx l.length = l := by
  induction l with
  | nil => rfl
  | cons x rest ih => simp [List.eraseIdx_cons_succ, ih]

/-- The signalled goroutine at position `r` runs again with a ticket left. -/
theorem step_resume_take (c : Config) (r : Nat) (b : Int) (hg : c.woken.get? r = some b)
    (hT : 0 < c.sys.TotalTickets) :
    step c (Event.resume r) =
      some { sys := buyTail c.sys b, waiters := c.waiters, woken := c.woken.eraseIdx r } := by
  have hne : c.sys.TotalTickets ≠ 0 := by omega
  simp only [step]
  rw [hg]
  simp [buyLoop, hne, endBuySection]

/-- A `HandleRefundRequest(u)` of a holder, `Signal` releasing the waiter at
position `w`. -/
theorem step_refund_release (c : Config) (u h : Int) (w : Nat) (b : Int)
    (hload : c.sys.UserTickets.Load u = some h) (hpos : 0 < h)
    (hw : c.waiters.get? w = some b) :
    step c (Event.refund u w) =
      some { sys := refundTail c.sys u h, waiters := c.waiters.eraseIdx w,
             woken := c.woken ++ [b] } := by
  simp only [step, HandleRefundRequest_of_holding c.sys u h hload hpos, signal]
  cases hc : c.waiters with
  | nil => rw [hc] at hw; simp at hw
  | cons x rest =>
      rw [hc] at hw
      simp only []
      rw [hw]

/-- The signalled goroutine at position `r` runs again with no ticket left. -/
theorem step_resume_park (c : Config) (r : Nat) (b : Int) (hg : c.woken.get? r = some b)
    (hT : c.sys.TotalTickets = 0) :
    step c (Event.resume r) =
      some { sys := waitLoopBody c.sys b, waiters := c.waiters ++ [b],
             woken := c.woken.eraseIdx r } := by
  simp only [step]
  rw [hg]
  simp [buyLoop, hT, endBuySection]

/-- Claim C15 as the code has it: in a reachable state (supply at least `0`)
with a caller `b` parked in `Wait`, a successful `HandleRefundRequest` raises
`TotalTickets` by one and its `Signal` releases one parked caller; if that
caller is the next to get the mutex, its re-check succeeds and it takes the
ticket (holding `1`, waiting flag `false`, `TotalTickets` back to what it
was). Whenever a released caller gets the mutex, it takes a ticket if
`TotalTickets > 0` at its re-check, and is parked again (stored holding `0`,
waiting flag `true`) if `TotalTickets == 0` at its re-check. -/
theorem liveness_under_release (supply : Int) (hs : 0 ≤ supply) (c : Config)
    (hc : Reachable supply c) (u h : Int) (w : Nat) (b : Int)
    (hload : c.sys.UserTickets.Load u = some h) (hpos : 0 < h)
    (hw : c.waiters.get? w = some b) :
    (∃ c1 c2 : Config,
      step c (Event.refund u w) = some c1 ∧
      c1.waiters = c.waiters.eraseIdx w ∧ c1.woken = c.woken ++ [b] ∧
      c1.sys.TotalTickets = c.sys.TotalTickets + 1 ∧
      step c1 (Event.resume c.woken.length) = some c2 ∧
      (buyLoop c1.sys b).1 = BuyStatus.done ∧
      c2.waiters = c1.waiters ∧ c2.woken = c.woken ∧
      c2.sys.TotalTickets = c.sys.TotalTickets ∧
      c2.sys.UserTickets.Load b = some 1 ∧
      c2.sys.WaitingUsers.Load b = some false) ∧
    (∀ (c' : Config) (r : Nat) (b' : Int), Reachable supply c' →
      c'.woken.get? r = some b' → 0 < c'.sys.TotalTickets →
      ∃ c2 : Config, step c' (Event.resume r) = some c2 ∧
        c2.waiters = c'.waiters ∧ c2.woken = c'.woken.eraseIdx r ∧
        c2.sys.TotalTickets = c'.sys.TotalTickets - 1 ∧
        c2.sys.UserTickets.Load b' = some 1 ∧
        c2.sys.WaitingUsers.Load b' = some false) ∧
    (∀ (c' : Config) (r : Nat) (b' : Int), Reachable supply c' →
      c'.woken.get? r = some b' → c'.sys.TotalTickets = 0 →
      ∃ c2 : Config, step c' (Event.resume r) = some c2 ∧
        (buyLoop c'.sys b').1 = BuyStatus.blocked ∧
        c2.waiters = c'.waiters ++ [b'] ∧ c2.woken = c'.woken.eraseIdx r ∧
        c2.sys.TotalTickets = 0 ∧
        c2.sys.UserTickets.Load b' = some 0 ∧
        c2.sys.WaitingUsers.Load b' = some true) ∧
    (∀ c' : Config, Reachable supply c' →
      0 < c'.sys.TotalTickets ∨ c'.sys.TotalTickets = 0) := by
  have h0 : 0 ≤ c.sys.TotalTickets := (reachable_Bounded supply hs c hc).2.1
  have hwrap : wrapInt64 (c.sys.TotalTickets + 1) = c.sys.TotalTickets + 1 :=
    reachable_no_wrap supply c hc ⟨u, h, hload, hpos⟩
  have hT1e : (refundTail c.sys u h).TotalTickets = c.sys.TotalTickets + 1 := by
    rw [refundTail_TotalTickets, hwrap]
  have hT1 : 0 < (refundTail c.sys u h).TotalTickets := by
    rw [hT1e]; omega
  have hne1 : (refundTail c.sys u h).TotalTickets ≠ 0 := by omega
  refine ⟨?_, ?_, ?_, ?_⟩
  · refine ⟨_, _, step_refund_release c u h w b hload hpos hw, rfl, rfl, hT1e,
      step_resume_take _ c.woken.length b (get?_append_length c.woken b) hT1, ?_, rfl, ?_, ?_,
      ?_, ?_⟩
    · show (buyLoop (refundTail c.sys u h) b).1 = BuyStatus.done
      unfold buyLoop
      rw [if_neg hne1]
    · exact eraseIdx_append_length c.woken b
    · show (buyTail (refundTail c.sys u h) b).TotalTickets = c.sys.TotalTickets
      rw [buyTail_TotalTickets _ _ hT1, hT1e]
      omega
    · show (buyTail (refundTail c.sys u h) b).UserTickets.Load b = some 1
      rw [buyTail_UserTickets _ _ _ hT1]; simp
    · show (buyTail (refundTail c.sys u h) b).WaitingUsers.Load b = some false
      rw [buyTail_WaitingUsers _ _ _ hT1]; simp
  · intro c' r b' _ hg hT
    refine ⟨_, step_resume_take c' r b' hg hT, rfl, rfl, buyTail_TotalTickets _ _ hT, ?_, ?_⟩
    · show (buyTail c'.sys b').UserTickets.Load b' = some 1
      rw [buyTail_UserTickets _ _ _ hT]; simp
    · show (buyTail c'.sys b').WaitingUsers.Load b' = some false
      rw [buyTail_WaitingUsers _ _ _ hT]; simp
  · intro c' r b' _ hg hT
    refine ⟨_, step_resume_park c' r b' hg hT, ?_, rfl, rfl, hT, ?_, ?_⟩
    · unfold buyLoop
      rw [if_pos hT]
    · show (waitLoopBody c'.sys b').UserTickets.Load b' = some 0
      rw [waitLoopBody_UserTickets]; simp
    · show (waitLoopBody c'.sys b').WaitingUsers.Load b' = some true
      rw [waitLoopBody_WaitingUsers]; simp
  · intro c' hc'
    have := (reachable_Bounded supply hs c' hc').2.1
    omega

theorem liveness_under_release_witness :
    (0 : Int) ≤ 1 ∧
    (runFrom (initConfig 1) [Event.buy 0, Event.buy 1]).waiters.get? 0 = some 1 ∧
    ∃ c1 c2 : Config,
      step (runFrom (initConfig 1) [Event.buy 0, Event.buy 1]) (Event.refund 0 0) = some c1 ∧
      step c1 (Event.resume 0) = some c2 ∧ c2.sys.UserTickets.Load 1 = some 1 :=
  have h := (liveness_under_release 1 (by decide)
    (runFrom (initConfig 1) [Event.buy 0, Event.buy 1])
    (reachable_run 1 [Event.buy 0, Event.buy 1] (initConfig 1) _ (Reachable.init (by decide) (by decide))
      (run_eq_runFrom (initConfig 1) [Event.buy 0, Event.buy 1] (by decide)))
    0 1 0 1 rfl (by decide) rfl).1
  ⟨by decide, rfl, h.elim fun c1 h1 => h1.elim fun c2 h2 =>
    ⟨c1, c2, h2.1, h2.2.2.2.2.1, h2.2.2.2.2.2.2.2.2.2.1⟩⟩

/-- Claim C15 fails as stated: with one ticket, user `1` is parked when user
`0` refunds successfully and `Signal` releases user `1`; user `2` then gets
the mutex first and takes the ticket, so the re-check of user `1` finds
`TotalTickets == 0` and parks it again. At the end user `1` is parked
without a ticket, nobody is signalled, and no suspended request can run. -/
theorem liveness_ticket_stolen :
    (runFrom (initConfig 1) [Event.buy 0, Event.buy 1]).waiters = [1] ∧
    (HandleRefundRequest (runFrom (initConfig 1) [Event.buy 0, Event.buy 1]).sys 0).toOption.map
      Prod.fst = some true ∧
    (runFrom (initConfig 1) handoverPrefix).woken = [1] ∧
    (buyLoop (runFrom (initConfig 1)
      [Event.buy 0, Event.buy 1, Event.refund 0 0, Event.buy 2]).sys 1).1 = BuyStatus.blocked ∧
    (run (initConfig 1) stolenTicketSchedule).isSome = true ∧
    Reachable 1 (runFrom (initConfig 1) stolenTicketSchedule) ∧
    (runFrom (initConfig 1) stolenTicketSchedule).waiters = [1] ∧
    (runFrom (initConfig 1) stolenTicketSchedule).woken = [] ∧
    (runFrom (initConfig 1) stolenTicketSchedule).sys.TotalTickets = 0 ∧
    QueryTickets (runFrom (initConfig 1) stolenTicketSchedule).sys 1 = 0 ∧
    QueryTickets (runFrom (initConfig 1) stolenTicketSchedule).sys 2 = 1 ∧
    (∀ r : Nat, step (runFrom (initConfig 1) stolenTicketSchedule) (Event.resume r) = none) := by
  refine ⟨by decide, by decide, by decide, by decide, by decide,
    reachable_run 1 stolenTicketSchedule (initConfig 1) _ (Reachable.init (by decide) (by decide))
      (run_eq_runFrom (initConfig 1) stolenTicketSchedule (by decide)),
    by decide, by decide, by decide, by decide, by decide, ?_⟩
  intro r
  have hw : (runFrom (initConfig 1) stolenTicketSchedule).woken = [] := by decide
  simp only [step]
  rw [hw]
  rfl

/-! ## Locking of the queries -/

theorem waitLoopBodyStages_last (t : TicketSystem) (id : Int) :
    (waitLoopBodyStages t id).getLast? = some (waitLoopBody t id) := rfl

theorem buyTailStages_last (t : TicketSystem) (id : Int) :
    (buyTailStages t id).getLast? = some (buyTail t id) := by
  unfold buyTailStages buyTail
  split <;> rfl

theorem refundTailStages_last (t : TicketSystem) (id count : Int) :
    (refundTailStages t id count).getLast? = some (refundTail t id count) := rfl

theorem waitLoopBodyStages_answers (t : TicketSystem) (id : Int) :
    ∀ s ∈ waitLoopBodyStages t id, AnswersAsAtBoundary t (waitLoopBody t id) s := by
  intro s hs u
  simp only [waitLoopBodyStages, List.mem_cons, List.mem_singleton, List.not_mem_nil,
    or_false] at hs
  rcases hs with rfl | rfl | rfl | rfl
  · exact ⟨Or.inl rfl, Or.inl rfl⟩
  · exact ⟨Or.inr rfl, Or.inl rfl⟩
  · exact ⟨Or.inr rfl, Or.inl rfl⟩
  · exact ⟨Or.inr rfl, Or.inl rfl⟩

theorem buyTailStages_answers (t : TicketSystem) (id : Int) :
    ∀ s ∈ buyTailStages t id, AnswersAsAtBoundary t (buyTail t id) s := by
  intro s hs u
  by_cases hT : t.TotalTickets > 0
  · simp only [buyTailStages, hT, if_true, List.mem_cons, List.mem_singleton,
      List.not_mem_nil, or_false] at hs
    rw [buyTail_of_pos t id hT]
    rcases hs with rfl | rfl | rfl | rfl | rfl | rfl
    · exact ⟨Or.inl rfl, Or.inl rfl⟩
    · exact ⟨Or.inl rfl, Or.inl rfl⟩
    · exact ⟨Or.inr rfl, Or.inl rfl⟩
    · exact ⟨Or.inr rfl, Or.inl rfl⟩
    · exact ⟨Or.inr rfl, Or.inl rfl⟩
    · exact ⟨Or.inr rfl, Or.inr rfl⟩
  · simp only [buyTailStages, hT, if_false, List.mem_cons, List.mem_singleton,
      List.not_mem_nil, or_false] at hs
    rcases hs with rfl | rfl | rfl
    · exact ⟨Or.inl rfl, Or.inl rfl⟩
    · exact ⟨Or.inl rfl, Or.inl rfl⟩
    · exact ⟨Or.inl rfl, Or.inl rfl⟩

theorem refundTailStages_answers (t : TicketSystem) (id count : Int) :
    ∀ s ∈ refundTailStages t id count, AnswersAsAtBoundary t (refundTail t id count) s := by
  intro s hs u
  simp only [refundTailStages, List.mem_cons, List.mem_singleton, List.not_mem_nil,
    or_false] at hs
  rcases hs with rfl | rfl | rfl | rfl | rfl
  · exact ⟨Or.inl rfl, Or.inl rfl⟩
  · exact ⟨Or.inl rfl, Or.inl rfl⟩
  · exact ⟨Or.inr rfl, Or.inl rfl⟩
  · exact ⟨Or.inr rfl, Or.inl rfl⟩
  · exact ⟨Or.inr rfl, Or.inr rfl⟩

/-- The last stage of a section is the memory the section leaves. -/
theorem sectionStages_last (c c' : Config) (e : Event) (hs : step c e = some c') :
    (sectionStages c e).getLast? = some c'.sys := by
  have hloop : ∀ id : Int, (buyLoopStages c.sys id).getLast? = some (buyLoop c.sys id).2 := by
    intro id
    unfold buyLoopStages buyLoop
    split
    · exact waitLoopBodyStages_last c.sys id
    · exact buyTailStages_last c.sys id
  cases e with
  | buy id =>
      simp only [step, Option.some.injEq] at hs
      rw [← hs, endBuySection_sys]
      simp only [sectionStages, HandleBuyRequest]
      cases hl : c.sys.UserTickets.Load id with
      | none => exact hloop id
      | some count =>
          by_cases hc : count > 0
          · simp only [hc, if_true]
            rfl
          · simp only [hc, if_false]
            exact hloop id
  | refund id w =>
      simp only [step] at hs
      simp only [sectionStages]
      unfold HandleRefundRequest at hs
      cases hl : c.sys.UserTickets.Load id with
      | none =>
          rw [hl] at hs
          exact absurd hs (by simp)
      | some count =>
          rw [hl] at hs
          by_cases hc : count > 0
          · simp only [hc, if_true] at hs ⊢
            rw [signal_sys _ _ _ hs]
            exact refundTailStages_last c.sys id count
          · simp only [hc, if_false, Option.some.injEq] at hs ⊢
            rw [← hs]
            rfl
  | resume r =>
      simp only [step] at hs
      simp only [sectionStages]
      cases hg : c.woken.get? r with
      | none =>
          rw [hg] at hs
          exact absurd hs (by simp)
      | some id =>
          rw [hg] at hs
          simp only [Option.some.injEq] at hs
          rw [← hs, endBuySection_sys]
          exact hloop id

/-- A method that takes the mutex returns only at an instant between two
atomic sections, with what it computes from the memory of a reachable
configuration. -/
theorem underMutex_returned {α : Type} (supply : Int) (w : World) (body : TicketSystem → α)
    (a : α) (hw : Occurs supply w) (hr : underMutex w body = Called.returned a) :
    ∃ c : Config, Reachable supply c ∧ w.mem = c.sys ∧ a = body c.sys := by
  cases hw with
  | free c hc =>
      simp only [underMutex, Bool.false_eq_true, if_false, Called.returned.injEq] at hr
      exact ⟨c, hc, rfl, hr.symm⟩
  | inside c c' e s _ _ _ =>
      simp [underMutex] at hr

/-- Claim C16 evaluated on the code: while the signalled `HandleBuyRequest(1)`
of `handoverPrefix` holds the mutex, between its `Store(id, 1)` and its
`WaitingUsers.Store(id, false)`, the memory is `midPurchase`, which no state
between two complete critical sections has. At that instant `QueryTickets(1)`
and `QueryHistory(1)` do not wait for the mutex and return what they read
there, whereas `GetUsersWithTickets` and `GetUsersWithoutTickets` wait. -/
theorem queries_read_inside_section :
    Occurs 1 { mem := midPurchase, locked := true } ∧
    callQueryTickets { mem := midPurchase, locked := true } 1 = Called.returned 1 ∧
    callQueryHistory { mem := midPurchase, locked := true } 1 = Called.returned [] ∧
    callGetUsersWithTickets { mem := midPurchase, locked := true } = Called.waits ∧
    callGetUsersWithoutTickets { mem := midPurchase, locked := true } = Called.waits ∧
    midPurchase.WaitingUsers.Load 1 = some true ∧
    ¬ ∃ c : Config, Reachable 1 c ∧ c.sys = midPurchase := by
  have hreach : Reachable 1 (runFrom (initConfig 1) handoverPrefix) :=
    reachable_run 1 handoverPrefix (initConfig 1) _ (Reachable.init (by decide) (by decide))
      (run_eq_runFrom (initConfig 1) handoverPrefix (by decide))
  have hstep : step (runFrom (initConfig 1) handoverPrefix) (Event.resume 0) =
      some (runFrom (runFrom (initConfig 1) handoverPrefix) [Event.resume 0]) := rfl
  have hmem : midPurchase ∈ sectionStages (runFrom (initConfig 1) handoverPrefix)
      (Event.resume 0) :=
    List.mem_cons_of_mem _ (List.mem_cons_of_mem _ (List.mem_cons_self _ _))
  refine ⟨Occurs.inside _ _ _ _ hreach hstep hmem, by decide, by decide, rfl, rfl, by decide, ?_⟩
  rintro ⟨c, hc, hsys⟩
  have hflag : c.sys.WaitingUsers.Load 1 = some true := by
    rw [hsys]; decide
  have hq := reachable_flag_holds_nothing 1 c hc 1 hflag
  rw [hsys] at hq
  exact absurd hq (by decide)

end TicketBooking
